import Mathlib

/-!
Verification development for the eeljet deployment orchestrator.

The TypeScript source is shallowly embedded: remote effects (SSH command
results, nginx validation, pm2 listings, database rows) are modelled as
explicit state and environment oracles, and the orchestration control flow
is translated function by function from the source files
(nginx-manager.ts, deployment-logger.ts, orm.tool.ts, cicd/index.ts,
packages/index.ts, builds/index.ts, orms/index.ts, sync.compare).
-/

namespace Eeljet

/-! ### JavaScript string primitives

JS string operations used by the source, implemented structurally over
character lists so they compute inside the kernel.
-/

/-- JS String.prototype.split with a single-character separator. -/
def splitOnChar (c : Char) : List Char → List (List Char)
  | [] => [[]]
  | x :: xs =>
    let r := splitOnChar c xs
    if x = c then [] :: r
    else
      match r with
      | [] => [[x]]
      | h :: t => (x :: h) :: t

/-- JS content.split with newline, as used on the routing-table file. -/
def jsSplitNl (s : String) : List String :=
  (splitOnChar '\n' s.data).map String.mk

/-- Whitespace characters relevant to the routing-table lines. -/
def isJsSpace (c : Char) : Bool :=
  c = ' ' || c = '\t' || c = '\n' || c = '\r'

/-- JS String.prototype.trim restricted to ASCII whitespace. -/
def jsTrim (s : String) : String :=
  String.mk (((s.data.dropWhile isJsSpace).reverse.dropWhile isJsSpace).reverse)

/-- Does the first list start with the second list? -/
def listStartsWith : List Char → List Char → Bool
  | _, [] => true
  | [], _ :: _ => false
  | a :: as, b :: bs => a = b && listStartsWith as bs

/-- JS String.prototype.startsWith. -/
def jsStartsWith (s pre : String) : Bool :=
  listStartsWith s.data pre.data

/-- JS Array.prototype.join with newline separator. -/
def joinNl : List String → String
  | [] => ""
  | [l] => l
  | l :: ls => l ++ "\n" ++ joinNl ls

/-! ### Reverse-proxy routing table manager (nginx-manager.ts)

The remote host state relevant to the routing-table mutations: the live
map file content, an oracle telling whether the nginx configuration test
passes for a given map-file content, and an oracle telling whether the
reload command exits successfully.  Counters record how many map-file
writes and how many reload commands were issued.
-/

structure World where
  mapFile : String
  nginxValid : String → Bool
  reloadOk : Bool
  writes : Nat := 0
  reloadCmds : Nat := 0

/-- Function testNginxConfig: runs the nginx configuration test against the
current live content. -/
def testNginxConfig (w : World) : Bool :=
  w.nginxValid w.mapFile

/-- Function reloadNginx: issues the reload command; throws when it exits
nonzero. -/
def reloadNginx (w : World) : World × Option String :=
  let w' := { w with reloadCmds := w.reloadCmds + 1 }
  if w.reloadOk then (w', none)
  else (w', some "Failed to reload Nginx")

/-- Function writeMapFile: writes content to a temp file through a quoted
heredoc and copies it over the live file.  The heredoc body is the content
followed by one newline, so the live file always ends up holding the
content plus a trailing newline. -/
def writeMapFile (w : World) (content : String) : World :=
  { w with mapFile := content ++ "\n", writes := w.writes + 1 }

/-- Function addPortMapping, translated line by line: read, exact-line
no-op check, stale-line filter, append, write, test, reload or rollback. -/
def addPortMapping (w : World) (subdomain domain : String) (port : Nat) :
    World × Option String :=
  let fullDomain := subdomain ++ "." ++ domain
  let mapLine := fullDomain ++ " " ++ toString port ++ ";"
  let content := w.mapFile
  let lines := jsSplitNl content
  if lines.any (fun l => jsTrim l == mapLine) then
    (w, none)
  else
    let filtered := lines.filter (fun l => !(jsStartsWith (jsTrim l) (fullDomain ++ " ")))
    let newContent := joinNl (filtered ++ [mapLine])
    let w1 := writeMapFile w newContent
    if testNginxConfig w1 then
      reloadNginx w1
    else
      let w2 := writeMapFile w1 content
      (w2, some "Nginx config test failed after port mapping")

/-- Function removePortMapping. -/
def removePortMapping (w : World) (subdomain domain : String) :
    World × Option String :=
  let fullDomain := subdomain ++ "." ++ domain
  let content := w.mapFile
  let lines := jsSplitNl content
  let filtered := lines.filter (fun l => !(jsStartsWith (jsTrim l) (fullDomain ++ " ")))
  let w1 := writeMapFile w (joinNl filtered)
  if testNginxConfig w1 then
    reloadNginx w1
  else
    let w2 := writeMapFile w1 content
    (w2, some "Nginx config test failed after removing port mapping")

/-- Function updatePortMapping. -/
def updatePortMapping (w : World) (subdomain domain : String) (newPort : Nat) :
    World × Option String :=
  let fullDomain := subdomain ++ "." ++ domain
  let newLine := fullDomain ++ " " ++ toString newPort ++ ";"
  let content := w.mapFile
  let lines := jsSplitNl content
  let updated := lines.map (fun l => if jsStartsWith (jsTrim l) (fullDomain ++ " ") then newLine else l)
  let w1 := writeMapFile w (joinNl updated)
  if testNginxConfig w1 then
    reloadNginx w1
  else
    let w2 := writeMapFile w1 content
    (w2, some "Nginx config test failed")

/-- Number of lines of a map-file content whose trimmed text equals the
given line. -/
def countExactLine (content line : String) : Nat :=
  (jsSplitNl content).countP (fun l => jsTrim l == line)

/-! ### Step logger (deployment-logger.ts)

A step carries an id, a name, a status and an optional error text.  The
logger mutates the first step whose id matches, exactly like the JS
steps.find followed by in-place mutation.
-/

inductive StepStatus
  | pending
  | running
  | success
  | failed
  | skipped
deriving DecidableEq, Repr

structure LogStep where
  id : String
  name : String
  status : StepStatus
  error : Option String := none
deriving DecidableEq, Repr

/-- Update the first step whose id matches, leaving the rest untouched. -/
def setStep (f : LogStep → LogStep) (stepId : String) : List LogStep → List LogStep
  | [] => []
  | s :: rest => if s.id = stepId then f s :: rest else s :: setStep f stepId rest

/-- Find the first step with the given id (JS steps.find). -/
def findStep : List LogStep → String → Option LogStep
  | [], _ => none
  | s :: rest, stepId => if s.id = stepId then some s else findStep rest stepId

/-- Find the first step with the given status (JS steps.find). -/
def findByStatus : List LogStep → StepStatus → Option LogStep
  | [], _ => none
  | s :: rest, st => if s.status = st then some s else findByStatus rest st

/-- Status of the first step with the given id, when present. -/
def statusOfStep (steps : List LogStep) (stepId : String) : Option StepStatus :=
  (findStep steps stepId).map (fun s => s.status)

structure Logger where
  steps : List LogStep
  stepIndex : Nat
deriving DecidableEq, Repr

def Logger.empty : Logger := { steps := [], stepIndex := 0 }

/-- Method addStep: appends a pending step with a generated id. -/
def Logger.addStep (lg : Logger) (name : String) : Logger × String :=
  let id := "step-" ++ toString lg.stepIndex
  ({ steps := lg.steps ++ [{ id := id, name := name, status := StepStatus.pending }],
     stepIndex := lg.stepIndex + 1 }, id)

def Logger.startStep (lg : Logger) (stepId : String) : Logger :=
  { lg with steps := setStep (fun s => { s with status := StepStatus.running }) stepId lg.steps }

def Logger.completeStep (lg : Logger) (stepId : String) : Logger :=
  { lg with steps := setStep (fun s => { s with status := StepStatus.success }) stepId lg.steps }

def Logger.failStep (lg : Logger) (stepId : String) (err : String) : Logger :=
  { lg with steps := setStep (fun s => { s with status := StepStatus.failed, error := some err }) stepId lg.steps }

def Logger.skipStep (lg : Logger) (stepId : String) : Logger :=
  { lg with steps := setStep (fun s => { s with status := StepStatus.skipped }) stepId lg.steps }

/-- Method getFailedStepId: id of the first step in failed state. -/
def Logger.getFailedStepId (lg : Logger) : Option String :=
  (findByStatus lg.steps StepStatus.failed).map (fun s => s.id)

/-- The catch blocks mark the step currently running as failed. -/
def Logger.failRunning (lg : Logger) (err : String) : Logger :=
  match findByStatus lg.steps StepStatus.running with
  | some s => lg.failStep s.id err
  | none => lg

/-! ### Redeploy pipeline (deployProject in orm.tool.ts)

The nine steps are registered on a fresh logger in source order, giving
the canonical step ids step-0 (stop) through step-8 (restart).  The
environment tells, per step id, whether the remote work of that step
throws, and whether an ORM is detected.  The state tracks the logger, the
checkpointed lastCompletedStep, which step bodies were entered, the cached
detection results with re-detection counters, the number of pm2 restart
commands issued, and whether the pm2 process is stopped.
-/

structure DeployEnv where
  fails : String → Option String
  ormDetected : Bool

structure DeployState where
  logger : Logger
  lastCompleted : Option String
  executed : List String
  pmCache : Bool
  appCache : Bool
  pmDetects : Nat
  appDetects : Nat
  restartCmds : Nat
  pm2Stopped : Bool

/-- The logger with the nine redeploy steps registered, plus the canonical
step order list built from the returned ids (source order). -/
def mkRedeployLogger : Logger × List String :=
  let (lg0, stopId) := Logger.empty.addStep "Stop process"
  let (lg1, pullId) := lg0.addStep "Pull latest code"
  let (lg2, detectPmId) := lg1.addStep "Detect package manager"
  let (lg3, detectAppId) := lg2.addStep "Detect app type"
  let (lg4, envId) := lg3.addStep "Update .env file"
  let (lg5, installId) := lg4.addStep "Install dependencies"
  let (lg6, ormId) := lg5.addStep "ORM setup"
  let (lg7, buildId) := lg6.addStep "Build application"
  let (lg8, restartId) := lg7.addStep "Restart application"
  (lg8, [stopId, pullId, detectPmId, detectAppId, envId, installId, ormId, buildId, restartId])

def redeployStepOrder : List String :=
  ["step-0", "step-1", "step-2", "step-3", "step-4", "step-5", "step-6", "step-7", "step-8"]

/-- The lazy re-detections performed by a step body before its remote
work: install re-detects the package manager when no cached result
exists, build re-detects both the app type and the package manager, and
restart re-detects the app type. -/
def stepLazyDetect (st : DeployState) (sid : String) : DeployState :=
  if sid = "step-5" then
    if st.pmCache then st
    else { st with pmCache := true, pmDetects := st.pmDetects + 1 }
  else if sid = "step-7" then
    let st := if st.appCache then st
              else { st with appCache := true, appDetects := st.appDetects + 1 }
    if st.pmCache then st
    else { st with pmCache := true, pmDetects := st.pmDetects + 1 }
  else if sid = "step-8" then
    if st.appCache then st
    else { st with appCache := true, appDetects := st.appDetects + 1 }
  else st

/-- The state updates a step body performs when its remote work
succeeded: the step is completed (or, for the ORM step with no ORM
detected, skipped), the detection steps fill their caches, the stop step
leaves the process stopped, and the restart step issues the one pm2
restart command. -/
def stepOnSuccess (E : DeployEnv) (st : DeployState) (sid : String) : DeployState :=
  if sid = "step-0" then
    { st with logger := st.logger.completeStep sid, pm2Stopped := true }
  else if sid = "step-2" then
    { st with logger := st.logger.completeStep sid,
              pmCache := true, pmDetects := st.pmDetects + 1 }
  else if sid = "step-3" then
    { st with logger := st.logger.completeStep sid,
              appCache := true, appDetects := st.appDetects + 1 }
  else if sid = "step-6" then
    if E.ormDetected then { st with logger := st.logger.completeStep sid }
    else { st with logger := st.logger.skipStep sid }
  else if sid = "step-8" then
    { st with logger := st.logger.completeStep sid,
              restartCmds := st.restartCmds + 1, pm2Stopped := false }
  else
    { st with logger := st.logger.completeStep sid }

/-- Entering a step body: the step is marked running and the body is
recorded as executed. -/
def stepStarted (st0 : DeployState) (sid : String) : DeployState :=
  { st0 with logger := st0.logger.startStep sid, executed := st0.executed ++ [sid] }

/-- One case of the switch statement: the body of the step.  Returns the
state after the body together with the thrown error, if any.  On an error
the step is left in running state; the catch block marks it failed. -/
def execRedeployStep (E : DeployEnv) (st0 : DeployState) (sid : String) :
    DeployState × Option String :=
  let st := stepStarted st0 sid
  let st := stepLazyDetect st sid
  match E.fails sid with
  | some m => (st, some m)
  | none => (stepOnSuccess E st sid, none)

/-- The for loop over stepOrder with the shouldSkip flag of runStep: a
skipped step gets status skipped and the loop continues without the
checkpoint; an executed step is followed by the lastCompletedStep
checkpoint; a thrown error stops the loop. -/
def runRedeployLoop (E : DeployEnv) (resume : Option String) :
    List String → Bool → DeployState → DeployState × Option String
  | [], _, st => (st, none)
  | sid :: rest, shouldSkip, st =>
    if shouldSkip ∧ resume ≠ some sid then
      runRedeployLoop E resume rest true { st with logger := st.logger.skipStep sid }
    else
      match execRedeployStep E st sid with
      | (st', some m) => (st', some m)
      | (st', none) =>
          runRedeployLoop E resume rest false { st' with lastCompleted := some sid }

structure RedeployResult where
  success : Bool
  depStatus : String
  projStatus : String
  lastCompletedStep : Option String
  steps : List LogStep
  executed : List String
  pmDetects : Nat
  appDetects : Nat
  restartCmds : Nat
  pm2Stopped : Bool

/-- JS truthiness of the optional resumeFromStep string: an absent or
empty identifier disables skipping. -/
def truthy : Option String → Bool
  | none => false
  | some s => !(s == "")

/-- The tail of deployProject after the loop: on success the deployment
is recorded SUCCESS and the project ACTIVE; on a thrown error the running
step is marked failed, lastCompletedStep is overwritten with
getFailedStepId, and both records are marked FAILED. -/
def deployFinish : DeployState × Option String → RedeployResult
  | (st, none) =>
      { success := true, depStatus := "SUCCESS", projStatus := "ACTIVE",
        lastCompletedStep := st.lastCompleted, steps := st.logger.steps,
        executed := st.executed, pmDetects := st.pmDetects,
        appDetects := st.appDetects, restartCmds := st.restartCmds,
        pm2Stopped := st.pm2Stopped }
  | (st, some m) =>
      let lg := st.logger.failRunning m
      { success := false, depStatus := "FAILED", projStatus := "FAILED",
        lastCompletedStep := lg.getFailedStepId, steps := lg.steps,
        executed := st.executed, pmDetects := st.pmDetects,
        appDetects := st.appDetects, restartCmds := st.restartCmds,
        pm2Stopped := st.pm2Stopped }

/-- The logger produced by mkRedeployLogger, written out: nine pending
steps with the generated ids. -/
def redeployInitLogger : Logger :=
  { steps := [
      { id := "step-0", name := "Stop process", status := StepStatus.pending },
      { id := "step-1", name := "Pull latest code", status := StepStatus.pending },
      { id := "step-2", name := "Detect package manager", status := StepStatus.pending },
      { id := "step-3", name := "Detect app type", status := StepStatus.pending },
      { id := "step-4", name := "Update .env file", status := StepStatus.pending },
      { id := "step-5", name := "Install dependencies", status := StepStatus.pending },
      { id := "step-6", name := "ORM setup", status := StepStatus.pending },
      { id := "step-7", name := "Build application", status := StepStatus.pending },
      { id := "step-8", name := "Restart application", status := StepStatus.pending }],
    stepIndex := 9 }

/-- The state of deployProject before the loop starts. -/
def redeployInitState : DeployState :=
  { logger := mkRedeployLogger.1, lastCompleted := none, executed := [],
    pmCache := false, appCache := false, pmDetects := 0, appDetects := 0,
    restartCmds := 0, pm2Stopped := false }

/-- Function deployProject (redeploy), from step registration to the
final database updates. -/
def deployProject (E : DeployEnv) (resume : Option String) : RedeployResult :=
  deployFinish (runRedeployLoop E resume mkRedeployLogger.2 (truthy resume) redeployInitState)

/-- Status of a step id in a redeploy result. -/
def RedeployResult.statusOf (r : RedeployResult) (stepId : String) : Option StepStatus :=
  statusOfStep r.steps stepId

/-- Marking a whole list of step ids skipped, as the resume loop does for
the prefix before the resume step. -/
def skipAllLogger (lg : Logger) (P : List String) : Logger :=
  P.foldl Logger.skipStep lg

/-- Invariant of the redeploy loop relating the detection caches, the
re-detection counters and the executed step bodies: a cached detection was
actually performed at least once, and whenever the install, build or
restart body has run, the detections it needs have been performed. -/
def DeployInv (st : DeployState) : Prop :=
  (st.pmCache = true → 1 ≤ st.pmDetects)
  ∧ (st.appCache = true → 1 ≤ st.appDetects)
  ∧ ("step-5" ∈ st.executed → 1 ≤ st.pmDetects)
  ∧ ("step-7" ∈ st.executed → 1 ≤ st.pmDetects ∧ 1 ≤ st.appDetects)
  ∧ ("step-8" ∈ st.executed → 1 ≤ st.appDetects)

/-! ### Create pipeline (createProject in orm.tool.ts)

The eleven steps after validation and availability checks, with an
environment oracle for each remote outcome.  The install and the build
step issue their remote command and, unlike in deployProject, never
inspect the returned exit code: installExit and buildExit are recorded in
the environment but the control flow does not branch on them.
-/

structure CreateEnv where
  cloneOk : Bool
  workDirExists : Bool
  appTypeFound : Bool
  envWriteExit : Nat
  envChmodExit : Nat
  installExit : Nat
  ormDetected : Bool
  ormOk : Bool
  buildExit : Nat
  ecoWriteExit : Nat
  pm2Online : Bool
  portBound : Bool

structure CreateResult where
  success : Bool
  steps : List LogStep
  cleanupRan : Bool
  world : World

/-- The logger with the eleven create steps registered in source order:
clone step-0, detect package manager step-1, detect app type step-2, env
step-3, install step-4, orm step-5, build step-6, pm2 step-7, port map
step-8, database step-9, cicd step-10. -/
def mkCreateLogger : Logger :=
  let (lg0, _) := Logger.empty.addStep "Clone repository"
  let (lg1, _) := lg0.addStep "Detect package manager"
  let (lg2, _) := lg1.addStep "Detect app type"
  let (lg3, _) := lg2.addStep "Create .env file"
  let (lg4, _) := lg3.addStep "Install dependencies"
  let (lg5, _) := lg4.addStep "ORM setup"
  let (lg6, _) := lg5.addStep "Build application"
  let (lg7, _) := lg6.addStep "Start with PM2"
  let (lg8, _) := lg7.addStep "Add port mapping"
  let (lg9, _) := lg8.addStep "Save to database"
  let (lg10, _) := lg9.addStep "Setup CI/CD"
  lg10

/-- The catch block of createProject: mark the running step failed, then
best-effort cleanup (pm2 delete, directory removal, routing-table entry
removal with errors ignored). -/
def createFail (lg : Logger) (w : World) (subdomain domain : String) (msg : String) :
    CreateResult :=
  let lg' := lg.failRunning msg
  let w' := (removePortMapping w subdomain domain).1
  { success := false, steps := lg'.steps, cleanupRan := true, world := w' }

/-- Function createProject from the clone step onward, translated
step by step.  Note the absent exit-code checks on the install and build
commands, and that the ecosystem-config write happens between the build
step and the pm2 step with no step running. -/
def createProject (E : CreateEnv) (w : World) (subdomain domain : String) (port : Nat) :
    CreateResult :=
  let lg := mkCreateLogger
  let lg := lg.startStep "step-0"
  if !E.cloneOk then createFail lg w subdomain domain "Clone failed" else
  let lg := lg.completeStep "step-0"
  if !E.workDirExists then createFail lg w subdomain domain "Root directory does not exist" else
  let lg := lg.startStep "step-1"
  let lg := lg.completeStep "step-1"
  let lg := lg.startStep "step-2"
  if !E.appTypeFound then
    createFail lg w subdomain domain "Unsupported app type. Currently only Next.js and Vite are supported."
  else
  let lg := lg.completeStep "step-2"
  let lg := lg.startStep "step-3"
  if E.envWriteExit ≠ 0 then createFail lg w subdomain domain "Failed to write .env file" else
  if E.envChmodExit ≠ 0 then createFail lg w subdomain domain "Failed to set .env permissions" else
  let lg := lg.completeStep "step-3"
  let lg := lg.startStep "step-4"
  let lg := lg.completeStep "step-4"
  let lg := lg.startStep "step-5"
  if E.ormDetected && !E.ormOk then createFail lg w subdomain domain "Prisma generate failed" else
  let lg := if E.ormDetected then lg.completeStep "step-5" else lg.skipStep "step-5"
  let lg := lg.startStep "step-6"
  let lg := lg.completeStep "step-6"
  if E.ecoWriteExit ≠ 0 then createFail lg w subdomain domain "Failed to write ecosystem.config.js" else
  let lg := lg.startStep "step-7"
  if !E.pm2Online then createFail lg w subdomain domain "Application failed to start" else
  if !E.portBound then
    createFail lg w subdomain domain ("Port " ++ toString port ++ " not bound after start")
  else
  let lg := lg.completeStep "step-7"
  let lg := lg.startStep "step-8"
  match addPortMapping w subdomain domain port with
  | (w', some m) => createFail lg w' subdomain domain m
  | (w', none) =>
  let lg := lg.completeStep "step-8"
  let lg := lg.startStep "step-9"
  let lg := lg.completeStep "step-9"
  let lg := lg.startStep "step-10"
  let lg := lg.completeStep "step-10"
  { success := true, steps := lg.steps, cleanupRan := false, world := w' }

/-! ### Capability detectors (packages/index.ts, builds/index.ts, orms/index.ts)

Remote probes are modelled by a filesystem oracle: which files exist in
the work directory, the dependency keys of package.json (dependencies and
devDependencies merged), whether package.json parses, and whether the
prisma directory exists.
-/

structure RemoteFS where
  hasFile : String → Bool
  deps : List String
  pkgParses : Bool
  hasPrismaDir : Bool

structure PackageManagerProvider where
  name : String
  detect : RemoteFS → Bool

/-- Class PnpmProvider: pnpm-lock.yaml exists. -/
def PnpmProvider : PackageManagerProvider :=
  { name := "pnpm", detect := fun fs => fs.hasFile "pnpm-lock.yaml" }

/-- Class YarnProvider: yarn.lock exists. -/
def YarnProvider : PackageManagerProvider :=
  { name := "yarn", detect := fun fs => fs.hasFile "yarn.lock" }

/-- Class NpmProvider: the fallback, always matches. -/
def NpmProvider : PackageManagerProvider :=
  { name := "npm", detect := fun _ => true }

/-- Ordered list PACKAGE_MANAGERS: pnpm first, then yarn, npm as fallback. -/
def PACKAGE_MANAGERS : List PackageManagerProvider :=
  [PnpmProvider, YarnProvider, NpmProvider]

/-- Function detectPackageManager: first provider whose detect returns
true; the final line returns the last list member and is unreachable. -/
def detectPackageManager (fs : RemoteFS) : PackageManagerProvider :=
  match PACKAGE_MANAGERS.find? (fun pm => pm.detect fs) with
  | some pm => pm
  | none => NpmProvider

structure AppTypeDetector where
  name : String
  detect : RemoteFS → Bool

/-- Class NextJsApp: package.json parses and has a next dependency. -/
def NextJsApp : AppTypeDetector :=
  { name := "Next.js", detect := fun fs => fs.pkgParses && fs.deps.contains "next" }

/-- Class ViteApp: a vite dependency plus one of the four vite config
files. -/
def ViteApp : AppTypeDetector :=
  { name := "Vite",
    detect := fun fs =>
      fs.pkgParses && fs.deps.contains "vite" &&
      (fs.hasFile "vite.config.ts" || fs.hasFile "vite.config.js" ||
       fs.hasFile "vite.config.mts" || fs.hasFile "vite.config.mjs") }

def APP_TYPES : List AppTypeDetector := [NextJsApp, ViteApp]

/-- Function detectAppType: first match wins; no fallback, a fatal error
when nothing matches. -/
def detectAppType (fs : RemoteFS) : Except String AppTypeDetector :=
  match APP_TYPES.find? (fun a => a.detect fs) with
  | some a => Except.ok a
  | none => Except.error "Unsupported app type. Currently only Next.js and Vite are supported."

structure OrmTool where
  name : String
  detect : RemoteFS → Bool

/-- Class PrismaOrm: prisma directory, or a prisma dependency when
package.json parses. -/
def PrismaOrm : OrmTool :=
  { name := "Prisma",
    detect := fun fs =>
      fs.hasPrismaDir ||
      (fs.pkgParses && (fs.deps.contains "prisma" || fs.deps.contains "@prisma/client")) }

def ORM_TOOLS : List OrmTool := [PrismaOrm]

/-- Function detectOrm: first match or null. -/
def detectOrm (fs : RemoteFS) : Option OrmTool :=
  ORM_TOOLS.find? (fun o => o.detect fs)

/-! ### Reconciliation (reconcileProjects, a pure function in the sync module) -/

inductive Pm2Status
  | online
  | stopped
  | errored
  | notFound
deriving DecidableEq, Repr

inductive ProjectStatus
  | PENDING
  | BUILDING
  | ACTIVE
  | FAILED
  | STOPPED
deriving DecidableEq, Repr

structure DiscoveredProject where
  subdomain : String
  pm2Status : Pm2Status
deriving DecidableEq, Repr

structure DbProject where
  id : String
  subdomain : String
  name : String
  status : ProjectStatus
deriving DecidableEq, Repr

structure ReconcileEntry where
  discovered : DiscoveredProject
  dbProjectId : String
  dbStatus : ProjectStatus
  suggestedStatus : ProjectStatus
  statusMismatch : Bool
deriving DecidableEq, Repr

structure InSyncEntry where
  id : String
  subdomain : String
deriving DecidableEq, Repr

structure OrphanEntry where
  id : String
  subdomain : String
  name : String
  status : ProjectStatus
deriving DecidableEq, Repr

structure SyncComparison where
  toImport : List DiscoveredProject
  toReconcile : List ReconcileEntry
  inSync : List InSyncEntry
  orphaned : List OrphanEntry
deriving DecidableEq, Repr

/-- Function mapPm2ToProjectStatus. -/
def mapPm2ToProjectStatus : Pm2Status → ProjectStatus
  | Pm2Status.online => ProjectStatus.ACTIVE
  | Pm2Status.stopped => ProjectStatus.STOPPED
  | Pm2Status.errored => ProjectStatus.FAILED
  | Pm2Status.notFound => ProjectStatus.STOPPED

/-- Lookup in the Map built from the db project list keyed by subdomain;
for duplicate keys a JS Map keeps the last insertion. -/
def dbBySubdomain (db : List DbProject) (s : String) : Option DbProject :=
  db.foldl (fun acc p => if p.subdomain = s then some p else acc) none

/-- The loop over discovered projects, producing the three lists in
iteration order. -/
def classifyDiscovered (db : List DbProject) :
    List DiscoveredProject → List DiscoveredProject × List ReconcileEntry × List InSyncEntry
  | [] => ([], [], [])
  | d :: rest =>
    let (ti, tr, isy) := classifyDiscovered db rest
    match dbBySubdomain db d.subdomain with
    | none => (d :: ti, tr, isy)
    | some p =>
      let suggested := mapPm2ToProjectStatus d.pm2Status
      if p.status ≠ suggested then
        (ti, { discovered := d, dbProjectId := p.id, dbStatus := p.status,
               suggestedStatus := suggested, statusMismatch := true } :: tr, isy)
      else
        (ti, tr, { id := p.id, subdomain := p.subdomain } :: isy)

/-- Function reconcileProjects. -/
def reconcileProjects (discovered : List DiscoveredProject) (db : List DbProject) :
    SyncComparison :=
  let (ti, tr, isy) := classifyDiscovered db discovered
  let orphaned :=
    (db.filter (fun p => !(discovered.any (fun d => d.subdomain = p.subdomain)))).map
      (fun p => { id := p.id, subdomain := p.subdomain, name := p.name, status := p.status })
  { toImport := ti, toReconcile := tr, inSync := isy, orphaned := orphaned }

/-! ### CI/CD provisioner (setupCICD in cicd/index.ts)

The environment carries the outcome of each of the four remote
operations.  The result additionally records, in order, which of the four
step bodies were entered, so that the claim about non-aborting failures
is observable.
-/

structure CicdEnv where
  deployScriptErr : Option String
  secretsResult : Except String (List String × List String)
  workflowErr : Option String
  syncErr : Option String

structure CicdResult where
  success : Bool
  secretsSet : List String
  workflowCreated : Bool
  deployScriptCreated : Bool
  errors : List String
  attempted : List String
deriving DecidableEq, Repr

/-- Function setupCICD: deploy script, secrets, workflow file, then the
host-clone fast-forward, the last guarded by workflowCreated. -/
def setupCICD (E : CicdEnv) : CicdResult :=
  let attempted1 := ["deploy script"]
  let (errors1, deployScriptCreated) :=
    match E.deployScriptErr with
    | some m => (["Deploy script: " ++ m], false)
    | none => ([], true)
  let attempted2 := attempted1 ++ ["secrets"]
  let (errors2, secretsSet) :=
    match E.secretsResult with
    | Except.ok (set, errs) => (errors1 ++ errs, set)
    | Except.error m => (errors1 ++ ["Secrets: " ++ m], [])
  let attempted3 := attempted2 ++ ["workflow"]
  let (errors3, workflowCreated) :=
    match E.workflowErr with
    | some m => (errors2 ++ ["Workflow: " ++ m], false)
    | none => (errors2, true)
  let (errors4, attempted4) :=
    if workflowCreated then
      match E.syncErr with
      | some m => (errors3 ++ ["VPS sync: " ++ m], attempted3 ++ ["sync"])
      | none => (errors3, attempted3 ++ ["sync"])
    else (errors3, attempted3)
  { success := errors4.isEmpty, secretsSet := secretsSet,
    workflowCreated := workflowCreated, deployScriptCreated := deployScriptCreated,
    errors := errors4, attempted := attempted4 }

/-! ### Delete pipeline (deleteProject in orm.tool.ts)

Each cleanup step is independently try/caught and pushes its error into
an accumulated list; the system-of-record row is deleted only when the
list is empty at the gate.  The routing-table step reuses the
nginx-manager model.  The database is a list of project rows.
-/

structure ProjectRec where
  id : String
  subdomain : String
  pm2Id : Option String
  storageBuckets : List (String × String)
deriving DecidableEq, Repr

structure DeleteEnv where
  pm2DeleteExit : Nat
  pm2ListAfter : List String
  rmDirExit : Nat
  dirGone : Bool
  bucketRmExit : String → Nat
  bucketGone : String → Bool
  dbDeleteOk : Bool

structure DeleteResult where
  success : Bool
  errors : List String
  db : List ProjectRec
  world : World

/-- Step 1, when the project has a pm2 id: delete and save, then verify
through the process listing. -/
def deletePm2Step (E : DeleteEnv) (pm2Id : String) : List String :=
  if E.pm2DeleteExit ≠ 0 then
    ["Stop PM2 process: " ++ pm2Id ++ " failed"]
  else if E.pm2ListAfter.contains pm2Id then
    ["PM2 process " ++ pm2Id ++ " still running after delete"]
  else []

/-- Steps 6: storage buckets under the storage root are removed and
verified gone, each independently try/caught. -/
def deleteBucketErrors (E : DeleteEnv) (storageRoot : String) :
    List (String × String) → List String
  | [] => []
  | (name, path) :: rest =>
    let here :=
      if jsStartsWith path storageRoot then
        if E.bucketRmExit path ≠ 0 then ["Remove storage bucket " ++ name ++ " failed"]
        else if !(E.bucketGone path) then ["Storage bucket " ++ name ++ " still exists"]
        else []
      else []
    here ++ deleteBucketErrors E storageRoot rest

/-- The ordered cleanup sequence of deleteProject: the accumulated error
list and the resulting host state. -/
def deleteCleanupErrors (E : DeleteEnv) (w : World) (projectsRoot storageRoot domain : String)
    (project : ProjectRec) : List String × World :=
  let errors0 : List String :=
    match project.pm2Id with
    | some pid => deletePm2Step E pid
    | none => []
  let (w1, removeErr) := removePortMapping w project.subdomain domain
  let errors1 := errors0 ++ (match removeErr with | some m => [m] | none => [])
  let (w2, errors2) :=
    if !(w1.nginxValid w1.mapFile) then
      (w1, errors1 ++ ["Test nginx config failed"])
    else
      match reloadNginx w1 with
      | (w', some m) => (w', errors1 ++ [m])
      | (w', none) => (w', errors1)
  let projectPath := projectsRoot ++ "/" ++ project.subdomain
  let errors3 :=
    if jsStartsWith projectPath projectsRoot && !(project.subdomain == "") then
      if E.rmDirExit ≠ 0 then errors2 ++ ["Remove directory " ++ projectPath ++ " failed"]
      else if !E.dirGone then errors2 ++ [projectPath ++ " still exists after rm -rf"]
      else errors2
    else errors2
  (errors3 ++ deleteBucketErrors E storageRoot project.storageBuckets, w2)

/-- Function deleteProject: the cleanup sequence, the error gate, and the
final database deletion, which happens only when the error list is empty. -/
def deleteProject (E : DeleteEnv) (w : World) (projectsRoot storageRoot domain : String)
    (project : ProjectRec) (db : List ProjectRec) : DeleteResult :=
  let (errors, w2) := deleteCleanupErrors E w projectsRoot storageRoot domain project
  if errors ≠ [] then
    { success := false, errors := errors, db := db, world := w2 }
  else if E.dbDeleteOk then
    { success := true, errors := errors, db := db.filter (fun p => p.id ≠ project.id),
      world := w2 }
  else
    { success := false, errors := errors, db := db, world := w2 }

/-! ## Theorems -/

/-! ### Lemmas about the string primitives -/

lemma splitOnChar_ne_nil (c : Char) (l : List Char) : splitOnChar c l ≠ [] := by
  induction l with
  | nil => simp [splitOnChar]
  | cons x xs ih =>
      by_cases hx : x = c
      · simp [splitOnChar, hx]
      · simp only [splitOnChar, if_neg hx]
        rcases h : splitOnChar c xs with _ | ⟨h1, t1⟩
        · simp
        · simp

lemma splitOnChar_sep_not_mem (c : Char) :
    ∀ (l : List Char), ∀ a ∈ splitOnChar c l, c ∉ a := by
  intro l
  induction l with
  | nil =>
      intro a ha
      simp [splitOnChar] at ha
      simp [ha]
  | cons x xs ih =>
      intro a ha
      by_cases hx : x = c
      · simp [splitOnChar, hx] at ha
        rcases ha with ha | ha
        · simp [ha]
        · exact ih a ha
      · simp only [splitOnChar, if_neg hx] at ha
        rcases h : splitOnChar c xs with _ | ⟨h1, t1⟩
        · exact absurd h (splitOnChar_ne_nil c xs)
        · rw [h] at ha
          simp at ha
          rcases ha with rfl | ha
          · intro hc
            rcases List.mem_cons.mp hc with hc | hc
            · exact hx hc.symm
            · exact ih h1 (by rw [h]; exact List.mem_cons_self _ _) hc
          · exact ih a (by rw [h]; exact List.mem_cons_of_mem _ ha)

lemma splitOnChar_of_not_mem (c : Char) (a : List Char) (h : c ∉ a) :
    splitOnChar c a = [a] := by
  induction a with
  | nil => rfl
  | cons x xs ih =>
      simp at h
      have hx : ¬ x = c := fun hxc => h.1 hxc.symm
      simp only [splitOnChar, if_neg hx]
      rw [ih h.2]

lemma splitOnChar_append (c : Char) (a r : List Char) (h : c ∉ a) :
    splitOnChar c (a ++ c :: r) = a :: splitOnChar c r := by
  induction a with
  | nil => simp [splitOnChar]
  | cons x xs ih =>
      simp at h
      have hx : ¬ x = c := fun hxc => h.1 hxc.symm
      simp only [List.cons_append, splitOnChar, if_neg hx, List.append_eq]
      rw [ih h.2]

lemma listStartsWith_append (a b : List Char) : listStartsWith (a ++ b) a = true := by
  induction a with
  | nil => cases b <;> rfl
  | cons x xs ih => simp [listStartsWith, ih]

lemma mem_jsSplitNl_no_nl (s : String) : ∀ l ∈ jsSplitNl s, '\n' ∉ l.data := by
  intro l hl
  simp only [jsSplitNl, List.mem_map] at hl
  rcases hl with ⟨a, ha, rfl⟩
  exact splitOnChar_sep_not_mem '\n' s.data a ha

lemma joinNl_data_cons (x : String) (y : String) (L : List String) :
    (joinNl (x :: y :: L)).data = x.data ++ '\n' :: (joinNl (y :: L)).data := by
  show (x ++ "\n" ++ joinNl (y :: L)).data = _
  simp [String.data_append]

lemma splitOnChar_joinNl (L : List String) (hne : L ≠ [])
    (h : ∀ x ∈ L, '\n' ∉ x.data) :
    splitOnChar '\n' ((joinNl L).data ++ ['\n']) = L.map String.data ++ [[]] := by
  induction L with
  | nil => exact absurd rfl hne
  | cons x L ih =>
      rcases L with _ | ⟨y, L'⟩
      · show splitOnChar '\n' (x.data ++ '\n' :: []) = [x.data, []]
        rw [splitOnChar_append '\n' x.data [] (h x (List.mem_cons_self _ _))]
        rfl
      · rw [joinNl_data_cons, List.append_assoc]
        show splitOnChar '\n' (x.data ++ '\n' :: ((joinNl (y :: L')).data ++ ['\n'])) = _
        rw [splitOnChar_append '\n' x.data _ (h x (List.mem_cons_self _ _))]
        rw [ih (by simp) (fun z hz => h z (List.mem_cons_of_mem _ hz))]
        rfl

lemma jsSplitNl_joinNl (L : List String) (hne : L ≠ [])
    (h : ∀ x ∈ L, '\n' ∉ x.data) :
    jsSplitNl (joinNl L ++ "\n") = L ++ [""] := by
  show (splitOnChar '\n' ((joinNl L ++ "\n")).data).map String.mk = L ++ [""]
  rw [String.data_append]
  show (splitOnChar '\n' ((joinNl L).data ++ ['\n'])).map String.mk = L ++ [""]
  rw [splitOnChar_joinNl L hne h]
  simp only [List.map_append, List.map_map, List.map_cons, List.map_nil]
  have hid : (String.mk ∘ String.data) = id := rfl
  rw [hid, List.map_id]

/-- C1: the claim as stated is false.  With a validation oracle that
rejects the written content, the rollback path of addPortMapping rewrites
the pre-mutation content through the heredoc write path, which appends a
trailing newline, so the file content after the call differs from the
content before the call. -/
theorem c1_exact_restore_counterexample :
    (addPortMapping
        { mapFile := "x.ex 3001;", nginxValid := fun _ => false, reloadOk := true }
        "demo" "ex" 3005).2.isSome = true
    ∧ (addPortMapping
        { mapFile := "x.ex 3001;", nginxValid := fun _ => false, reloadOk := true }
        "demo" "ex" 3005).1.mapFile = "x.ex 3001;\n"
    ∧ (addPortMapping
        { mapFile := "x.ex 3001;", nginxValid := fun _ => false, reloadOk := true }
        "demo" "ex" 3005).1.mapFile ≠ "x.ex 3001;" := by
  decide

/-- C1 (amended): for every routing-table mutation whose post-write
validation fails, the call raises an error, performs no proxy reload, and
leaves the file holding exactly the pre-mutation content plus the one
trailing newline appended by the heredoc write path. -/
theorem c1_rollback_on_validation_failure (w : World) (s d : String) (p q : Nat) :
    ((jsSplitNl w.mapFile).any
        (fun l => jsTrim l == s ++ "." ++ d ++ " " ++ toString p ++ ";") = false →
      w.nginxValid (joinNl
          ((jsSplitNl w.mapFile).filter
            (fun l => !(jsStartsWith (jsTrim l) (s ++ "." ++ d ++ " "))) ++
          [s ++ "." ++ d ++ " " ++ toString p ++ ";"]) ++ "\n") = false →
      (addPortMapping w s d p).1.mapFile = w.mapFile ++ "\n"
      ∧ (addPortMapping w s d p).2.isSome = true
      ∧ (addPortMapping w s d p).1.reloadCmds = w.reloadCmds)
    ∧ (w.nginxValid (joinNl
          ((jsSplitNl w.mapFile).filter
            (fun l => !(jsStartsWith (jsTrim l) (s ++ "." ++ d ++ " ")))) ++ "\n") = false →
      (removePortMapping w s d).1.mapFile = w.mapFile ++ "\n"
      ∧ (removePortMapping w s d).2.isSome = true
      ∧ (removePortMapping w s d).1.reloadCmds = w.reloadCmds)
    ∧ (w.nginxValid (joinNl
          ((jsSplitNl w.mapFile).map
            (fun l => if jsStartsWith (jsTrim l) (s ++ "." ++ d ++ " ") then
               s ++ "." ++ d ++ " " ++ toString q ++ ";" else l)) ++ "\n") = false →
      (updatePortMapping w s d q).1.mapFile = w.mapFile ++ "\n"
      ∧ (updatePortMapping w s d q).2.isSome = true
      ∧ (updatePortMapping w s d q).1.reloadCmds = w.reloadCmds) := by
  refine ⟨fun h1 h2 => ?_, fun h2 => ?_, fun h2 => ?_⟩
  · simp [addPortMapping, writeMapFile, testNginxConfig, h1, h2]
  · simp [removePortMapping, writeMapFile, testNginxConfig, h2]
  · simp [updatePortMapping, writeMapFile, testNginxConfig, h2]

/-- C1 witness: the amended theorem applied at a concrete world whose
validation oracle always fails. -/
theorem c1_rollback_on_validation_failure_witness :
    (addPortMapping
        { mapFile := "x.ex 3001;", nginxValid := fun _ => false, reloadOk := true }
        "demo" "ex" 3005).1.mapFile = "x.ex 3001;" ++ "\n"
    ∧ (removePortMapping
        { mapFile := "x.ex 3001;", nginxValid := fun _ => false, reloadOk := true }
        "x" "ex").1.mapFile = "x.ex 3001;" ++ "\n" := by
  refine ⟨((c1_rollback_on_validation_failure
      { mapFile := "x.ex 3001;", nginxValid := fun _ => false, reloadOk := true }
      "demo" "ex" 3005 3005).1 (by decide) (by decide)).1,
    ((c1_rollback_on_validation_failure
      { mapFile := "x.ex 3001;", nginxValid := fun _ => false, reloadOk := true }
      "x" "ex" 3005 3005).2.1 (by decide)).1⟩

/-- C2: deleteProject is all-or-nothing with respect to the database row:
when any verified cleanup sub-step records an error, the call fails with
the accumulated error list and the row list is untouched; the row is
removed exactly when the error list is empty and the database delete
succeeds. -/
theorem c2_delete_all_or_nothing (E : DeleteEnv) (w : World)
    (projectsRoot storageRoot domain : String) (project : ProjectRec)
    (db : List ProjectRec) :
    ((deleteProject E w projectsRoot storageRoot domain project db).errors ≠ [] →
      (deleteProject E w projectsRoot storageRoot domain project db).success = false
      ∧ (deleteProject E w projectsRoot storageRoot domain project db).db = db)
    ∧ ((deleteProject E w projectsRoot storageRoot domain project db).db ≠ db →
      (deleteProject E w projectsRoot storageRoot domain project db).errors = [])
    ∧ ((deleteProject E w projectsRoot storageRoot domain project db).success = true →
      (deleteProject E w projectsRoot storageRoot domain project db).errors = []
      ∧ (deleteProject E w projectsRoot storageRoot domain project db).db =
          db.filter (fun p => p.id ≠ project.id)) := by
  unfold deleteProject
  rcases h : deleteCleanupErrors E w projectsRoot storageRoot domain project with ⟨errs, w2⟩
  by_cases he : errs = []
  · subst he
    cases hd : E.dbDeleteOk <;> simp [hd]
  · simp [he]

/-- C2 witness: a delete where the directory-removal step fails leaves
the row list unchanged and reports failure. -/
theorem c2_delete_all_or_nothing_witness :
    (deleteProject
      { pm2DeleteExit := 0, pm2ListAfter := [], rmDirExit := 1, dirGone := false,
        bucketRmExit := fun _ => 0, bucketGone := fun _ => true, dbDeleteOk := true }
      { mapFile := "", nginxValid := fun _ => true, reloadOk := true }
      "/var/www" "/srv/storage" "ex"
      { id := "p1", subdomain := "demo", pm2Id := some "demo", storageBuckets := [] }
      [{ id := "p1", subdomain := "demo", pm2Id := some "demo", storageBuckets := [] }]).success = false
    ∧ (deleteProject
      { pm2DeleteExit := 0, pm2ListAfter := [], rmDirExit := 1, dirGone := false,
        bucketRmExit := fun _ => 0, bucketGone := fun _ => true, dbDeleteOk := true }
      { mapFile := "", nginxValid := fun _ => true, reloadOk := true }
      "/var/www" "/srv/storage" "ex"
      { id := "p1", subdomain := "demo", pm2Id := some "demo", storageBuckets := [] }
      [{ id := "p1", subdomain := "demo", pm2Id := some "demo", storageBuckets := [] }]).db =
      [{ id := "p1", subdomain := "demo", pm2Id := some "demo", storageBuckets := [] }] := by
  exact (c2_delete_all_or_nothing
    { pm2DeleteExit := 0, pm2ListAfter := [], rmDirExit := 1, dirGone := false,
      bucketRmExit := fun _ => 0, bucketGone := fun _ => true, dbDeleteOk := true }
    { mapFile := "", nginxValid := fun _ => true, reloadOk := true }
    "/var/www" "/srv/storage" "ex"
    { id := "p1", subdomain := "demo", pm2Id := some "demo", storageBuckets := [] }
    [{ id := "p1", subdomain := "demo", pm2Id := some "demo", storageBuckets := [] }]).1
    (by decide)

/-! ### Lemmas about the step logger and the redeploy loop -/

lemma findStep_setStep_ne (f : LogStep → LogStep) (sid T : String)
    (hid : ∀ u, (f u).id = u.id) (h : T ≠ sid) :
    ∀ steps, findStep (setStep f sid steps) T = findStep steps T := by
  intro steps
  induction steps with
  | nil => rfl
  | cons u rest ih =>
      by_cases hu : u.id = sid
      · have h1 : ¬ (f u).id = T := by rw [hid u, hu]; exact fun he => h he.symm
        have h2 : ¬ u.id = T := by rw [hu]; exact fun he => h he.symm
        simp only [setStep, if_pos hu, findStep, if_neg h1, if_neg h2]
      · by_cases hT : u.id = T
        · simp only [setStep, if_neg hu, findStep, if_pos hT]
        · simp only [setStep, if_neg hu, findStep, if_neg hT, ih]

lemma findStep_setStep_self (f : LogStep → LogStep) (sid : String)
    (hid : ∀ u, (f u).id = u.id) :
    ∀ steps, findStep (setStep f sid steps) sid = (findStep steps sid).map f := by
  intro steps
  induction steps with
  | nil => rfl
  | cons u rest ih =>
      by_cases hu : u.id = sid
      · have h1 : (f u).id = sid := by rw [hid u, hu]
        simp only [setStep, if_pos hu, findStep, if_pos h1]
        rfl
      · have h1 : ¬ (f u).id = sid := by rw [hid u]; exact hu
        simp only [setStep, if_neg hu, findStep, if_neg h1, ih]

lemma setStep_ids (f : LogStep → LogStep) (sid : String)
    (hid : ∀ u, (f u).id = u.id) :
    ∀ steps, (setStep f sid steps).map (fun u => u.id) = steps.map (fun u => u.id) := by
  intro steps
  induction steps with
  | nil => rfl
  | cons u rest ih =>
      by_cases hu : u.id = sid
      · simp [setStep, if_pos hu, hid u]
      · simp [setStep, if_neg hu, ih]

lemma statusOfStep_skipStep_ne (lg : Logger) (sid T : String) (h : T ≠ sid) :
    statusOfStep (lg.skipStep sid).steps T = statusOfStep lg.steps T := by
  unfold statusOfStep
  rw [show (lg.skipStep sid).steps =
      setStep (fun s => { s with status := StepStatus.skipped }) sid lg.steps from rfl,
    findStep_setStep_ne (fun s => { s with status := StepStatus.skipped }) sid T
      (fun u => rfl) h]

lemma statusOfStep_startStep_ne (lg : Logger) (sid T : String) (h : T ≠ sid) :
    statusOfStep (lg.startStep sid).steps T = statusOfStep lg.steps T := by
  unfold statusOfStep
  rw [show (lg.startStep sid).steps =
      setStep (fun s => { s with status := StepStatus.running }) sid lg.steps from rfl,
    findStep_setStep_ne (fun s => { s with status := StepStatus.running }) sid T
      (fun u => rfl) h]

lemma statusOfStep_completeStep_ne (lg : Logger) (sid T : String) (h : T ≠ sid) :
    statusOfStep (lg.completeStep sid).steps T = statusOfStep lg.steps T := by
  unfold statusOfStep
  rw [show (lg.completeStep sid).steps =
      setStep (fun s => { s with status := StepStatus.success }) sid lg.steps from rfl,
    findStep_setStep_ne (fun s => { s with status := StepStatus.success }) sid T
      (fun u => rfl) h]

lemma statusOfStep_failStep_ne (lg : Logger) (sid m T : String) (h : T ≠ sid) :
    statusOfStep (lg.failStep sid m).steps T = statusOfStep lg.steps T := by
  unfold statusOfStep
  rw [show (lg.failStep sid m).steps =
      setStep (fun s => { s with status := StepStatus.failed, error := some m }) sid lg.steps from rfl,
    findStep_setStep_ne (fun s => { s with status := StepStatus.failed, error := some m }) sid T
      (fun u => rfl) h]

lemma statusOfStep_skipStep_self (lg : Logger) (sid : String)
    (h : (findStep lg.steps sid).isSome = true) :
    statusOfStep (lg.skipStep sid).steps sid = some StepStatus.skipped := by
  unfold statusOfStep
  rw [show (lg.skipStep sid).steps =
      setStep (fun s => { s with status := StepStatus.skipped }) sid lg.steps from rfl,
    findStep_setStep_self (fun s => { s with status := StepStatus.skipped }) sid
      (fun u => rfl)]
  rcases hf : findStep lg.steps sid with _ | u
  · rw [hf] at h; simp at h
  · rfl

lemma findStep_isSome_skipStep (lg : Logger) (sid T : String)
    (h : (findStep lg.steps T).isSome = true) :
    (findStep (lg.skipStep sid).steps T).isSome = true := by
  rw [show (lg.skipStep sid).steps =
      setStep (fun s => { s with status := StepStatus.skipped }) sid lg.steps from rfl]
  by_cases hT : T = sid
  · subst hT
    rw [findStep_setStep_self (fun s => { s with status := StepStatus.skipped }) T
      (fun u => rfl)]
    rcases hf : findStep lg.steps T with _ | u
    · rw [hf] at h; simp at h
    · rfl
  · rw [findStep_setStep_ne (fun s => { s with status := StepStatus.skipped }) sid T
      (fun u => rfl) hT]
    exact h

lemma skipStep_ids (lg : Logger) (sid : String) :
    (lg.skipStep sid).steps.map (fun u => u.id) = lg.steps.map (fun u => u.id) := by
  rw [show (lg.skipStep sid).steps =
      setStep (fun s => { s with status := StepStatus.skipped }) sid lg.steps from rfl]
  exact setStep_ids (fun s => { s with status := StepStatus.skipped }) sid (fun u => rfl) _

lemma skipAllLogger_statusOf_not_mem (P : List String) :
    ∀ (lg : Logger) (T : String), T ∉ P →
      statusOfStep (skipAllLogger lg P).steps T = statusOfStep lg.steps T := by
  induction P with
  | nil => intro lg T _; rfl
  | cons sid rest ih =>
      intro lg T h
      have h1 : T ≠ sid := fun he => h (he ▸ List.mem_cons_self sid rest)
      have h2 : T ∉ rest := fun hm => h (List.mem_cons_of_mem _ hm)
      show statusOfStep (skipAllLogger (lg.skipStep sid) rest).steps T = _
      rw [ih (lg.skipStep sid) T h2, statusOfStep_skipStep_ne lg sid T h1]

lemma skipAllLogger_isSome (P : List String) :
    ∀ (lg : Logger) (T : String), (findStep lg.steps T).isSome = true →
      (findStep (skipAllLogger lg P).steps T).isSome = true := by
  induction P with
  | nil => intro lg T h; exact h
  | cons sid rest ih =>
      intro lg T h
      exact ih (lg.skipStep sid) T (findStep_isSome_skipStep lg sid T h)

lemma skipAllLogger_statusOf_mem (P : List String) :
    ∀ (lg : Logger) (T : String), T ∈ P → (findStep lg.steps T).isSome = true →
      statusOfStep (skipAllLogger lg P).steps T = some StepStatus.skipped := by
  induction P with
  | nil => intro lg T h _; cases h
  | cons sid rest ih =>
      intro lg T h hp
      by_cases hm : T ∈ rest
      · exact ih (lg.skipStep sid) T hm (findStep_isSome_skipStep lg sid T hp)
      · have hT : T = sid := by
          rcases List.mem_cons.mp h with h | h
          · exact h
          · exact absurd h hm
        subst hT
        show statusOfStep (skipAllLogger (lg.skipStep T) rest).steps T = _
        rw [skipAllLogger_statusOf_not_mem rest (lg.skipStep T) T hm]
        exact statusOfStep_skipStep_self lg T hp

lemma skipAllLogger_ids (P : List String) :
    ∀ (lg : Logger), (skipAllLogger lg P).steps.map (fun u => u.id) =
      lg.steps.map (fun u => u.id) := by
  induction P with
  | nil => intro lg; rfl
  | cons sid rest ih =>
      intro lg
      show (skipAllLogger (lg.skipStep sid) rest).steps.map (fun u => u.id) = _
      rw [ih (lg.skipStep sid), skipStep_ids]

lemma mkRedeployLogger_eq : mkRedeployLogger = (redeployInitLogger, redeployStepOrder) := by
  decide

lemma deployProject_eq (E : DeployEnv) (resume : Option String) :
    deployProject E resume =
      deployFinish (runRedeployLoop E resume redeployStepOrder (truthy resume)
        { logger := redeployInitLogger, lastCompleted := none, executed := [],
          pmCache := false, appCache := false, pmDetects := 0, appDetects := 0,
          restartCmds := 0, pm2Stopped := false }) := by
  unfold deployProject redeployInitState
  rw [mkRedeployLogger_eq]

lemma stepLazyDetect_executed (st : DeployState) (sid : String) :
    (stepLazyDetect st sid).executed = st.executed := by
  simp only [stepLazyDetect]
  split_ifs <;> rfl

lemma stepLazyDetect_logger (st : DeployState) (sid : String) :
    (stepLazyDetect st sid).logger = st.logger := by
  simp only [stepLazyDetect]
  split_ifs <;> rfl

lemma stepLazyDetect_lastCompleted (st : DeployState) (sid : String) :
    (stepLazyDetect st sid).lastCompleted = st.lastCompleted := by
  simp only [stepLazyDetect]
  split_ifs <;> rfl

lemma stepOnSuccess_executed (E : DeployEnv) (st : DeployState) (sid : String) :
    (stepOnSuccess E st sid).executed = st.executed := by
  unfold stepOnSuccess
  split_ifs <;> rfl

lemma stepOnSuccess_lastCompleted (E : DeployEnv) (st : DeployState) (sid : String) :
    (stepOnSuccess E st sid).lastCompleted = st.lastCompleted := by
  unfold stepOnSuccess
  split_ifs <;> rfl

lemma stepOnSuccess_statusOf_ne (E : DeployEnv) (st : DeployState) (sid T : String)
    (h : T ≠ sid) :
    statusOfStep (stepOnSuccess E st sid).logger.steps T = statusOfStep st.logger.steps T := by
  unfold stepOnSuccess
  split_ifs <;>
    first
      | exact statusOfStep_completeStep_ne st.logger sid T h
      | exact statusOfStep_skipStep_ne st.logger sid T h

lemma execStep_executed (E : DeployEnv) (st : DeployState) (sid : String) :
    ((execRedeployStep E st sid).1).executed = st.executed ++ [sid] := by
  unfold execRedeployStep
  rcases hE : E.fails sid with _ | m <;>
    simp [hE, stepLazyDetect_executed, stepOnSuccess_executed, stepStarted]

lemma execStep_lastCompleted (E : DeployEnv) (st : DeployState) (sid : String) :
    ((execRedeployStep E st sid).1).lastCompleted = st.lastCompleted := by
  unfold execRedeployStep
  rcases hE : E.fails sid with _ | m <;>
    simp [hE, stepLazyDetect_lastCompleted, stepOnSuccess_lastCompleted, stepStarted]

lemma execStep_statusOf_ne (E : DeployEnv) (st : DeployState) (sid T : String)
    (h : T ≠ sid) :
    statusOfStep ((execRedeployStep E st sid).1).logger.steps T =
      statusOfStep st.logger.steps T := by
  unfold execRedeployStep
  rcases hE : E.fails sid with _ | m
  · simp only [hE]
    rw [stepOnSuccess_statusOf_ne _ _ _ _ h, stepLazyDetect_logger]
    exact statusOfStep_startStep_ne _ _ _ h
  · simp only [hE]
    rw [stepLazyDetect_logger]
    exact statusOfStep_startStep_ne _ _ _ h

lemma startStep_ids (lg : Logger) (sid : String) :
    (lg.startStep sid).steps.map (fun u => u.id) = lg.steps.map (fun u => u.id) := by
  rw [show (lg.startStep sid).steps =
      setStep (fun s => { s with status := StepStatus.running }) sid lg.steps from rfl]
  exact setStep_ids (fun s => { s with status := StepStatus.running }) sid (fun u => rfl) _

lemma completeStep_ids (lg : Logger) (sid : String) :
    (lg.completeStep sid).steps.map (fun u => u.id) = lg.steps.map (fun u => u.id) := by
  rw [show (lg.completeStep sid).steps =
      setStep (fun s => { s with status := StepStatus.success }) sid lg.steps from rfl]
  exact setStep_ids (fun s => { s with status := StepStatus.success }) sid (fun u => rfl) _

lemma stepOnSuccess_ids (E : DeployEnv) (st : DeployState) (sid : String) :
    (stepOnSuccess E st sid).logger.steps.map (fun u => u.id) =
      st.logger.steps.map (fun u => u.id) := by
  unfold stepOnSuccess
  split_ifs <;> first | exact completeStep_ids st.logger sid | exact skipStep_ids st.logger sid

lemma execStep_ids (E : DeployEnv) (st : DeployState) (sid : String) :
    ((execRedeployStep E st sid).1).logger.steps.map (fun u => u.id) =
      st.logger.steps.map (fun u => u.id) := by
  unfold execRedeployStep
  rcases hE : E.fails sid with _ | m
  · simp only [hE]
    rw [stepOnSuccess_ids, stepLazyDetect_logger]
    exact startStep_ids _ _
  · simp only [hE]
    rw [stepLazyDetect_logger]
    exact startStep_ids _ _

lemma findByStatus_props (stt : StepStatus) (u : LogStep) :
    ∀ steps, findByStatus steps stt = some u → u ∈ steps ∧ u.status = stt := by
  intro steps
  induction steps with
  | nil => intro h; cases h
  | cons s rest ih =>
      intro h
      by_cases hs : s.status = stt
      · simp only [findByStatus, if_pos hs] at h
        have hsu := Option.some.inj h
        subst hsu
        exact ⟨List.mem_cons_self _ _, hs⟩
      · simp only [findByStatus, if_neg hs] at h
        rcases ih h with ⟨h1, h2⟩
        exact ⟨List.mem_cons_of_mem _ h1, h2⟩

lemma findStep_props (T : String) (u : LogStep) :
    ∀ steps, findStep steps T = some u → u ∈ steps ∧ u.id = T := by
  intro steps
  induction steps with
  | nil => intro h; cases h
  | cons s rest ih =>
      intro h
      by_cases hs : s.id = T
      · simp only [findStep, if_pos hs] at h
        have hsu := Option.some.inj h
        subst hsu
        exact ⟨List.mem_cons_self _ _, hs⟩
      · simp only [findStep, if_neg hs] at h
        rcases ih h with ⟨h1, h2⟩
        exact ⟨List.mem_cons_of_mem _ h1, h2⟩

lemma eq_of_mem_nodup_ids (u v : LogStep) :
    ∀ steps : List LogStep, (steps.map (fun s => s.id)).Nodup →
      u ∈ steps → v ∈ steps → u.id = v.id → u = v := by
  intro steps
  induction steps with
  | nil => intro _ hu; cases hu
  | cons s rest ih =>
      intro hnd hu hv he
      simp only [List.map_cons, List.nodup_cons] at hnd
      rcases List.mem_cons.mp hu with huE | huR
      · rcases List.mem_cons.mp hv with hvE | hvR
        · rw [huE, hvE]
        · subst huE
          exfalso
          have hin : u.id ∈ rest.map (fun s => s.id) := by
            rw [he]; exact List.mem_map_of_mem (fun s => s.id) hvR
          exact hnd.1 hin
      · rcases List.mem_cons.mp hv with hvE | hvR
        · subst hvE
          exfalso
          have hin : v.id ∈ rest.map (fun s => s.id) := by
            rw [← he]; exact List.mem_map_of_mem (fun s => s.id) huR
          exact hnd.1 hin
        · exact ih hnd.2 huR hvR he

lemma failRunning_statusOf_skipped (lg : Logger) (m T : String)
    (hnd : (lg.steps.map (fun u => u.id)).Nodup)
    (h : statusOfStep lg.steps T = some StepStatus.skipped) :
    statusOfStep (lg.failRunning m).steps T = some StepStatus.skipped := by
  unfold Logger.failRunning
  rcases hf : findByStatus lg.steps StepStatus.running with _ | u
  · exact h
  · rcases findByStatus_props StepStatus.running u lg.steps hf with ⟨humem, hurun⟩
    by_cases hTu : T = u.id
    · exfalso
      rcases hv : findStep lg.steps T with _ | v
      · unfold statusOfStep at h
        rw [hv] at h
        cases h
      · rcases findStep_props T v lg.steps hv with ⟨hvmem, hvid⟩
        have huv : u = v := eq_of_mem_nodup_ids u v lg.steps hnd humem hvmem (by rw [hvid, hTu])
        unfold statusOfStep at h
        rw [hv] at h
        have hvs : v.status = StepStatus.skipped := by
          simpa using h
        rw [huv, hvs] at hurun
        cases hurun
    · rw [statusOfStep_failStep_ne lg u.id m T hTu]
      exact h

lemma runLoop_skip_prefix (E : DeployEnv) (r : Option String) :
    ∀ (P rest : List String) (st : DeployState), (∀ sid ∈ P, r ≠ some sid) →
      runRedeployLoop E r (P ++ rest) true st =
        runRedeployLoop E r rest true { st with logger := skipAllLogger st.logger P } := by
  intro P
  induction P with
  | nil => intro rest st _; rfl
  | cons sid P ih =>
      intro rest st h
      show (if (true : Bool) ∧ r ≠ some sid then _ else _) = _
      rw [if_pos ⟨rfl, h sid (List.mem_cons_self _ _)⟩]
      exact ih rest { st with logger := st.logger.skipStep sid }
        (fun x hx => h x (List.mem_cons_of_mem _ hx))

lemma runLoop_cons_exec (E : DeployEnv) (r : Option String) (sid : String)
    (rest : List String) (b : Bool) (st : DeployState) (hc : ¬((b : Bool) ∧ r ≠ some sid)) :
    runRedeployLoop E r (sid :: rest) b st =
      (match execRedeployStep E st sid with
       | (st', some m) => (st', some m)
       | (st', none) => runRedeployLoop E r rest false { st' with lastCompleted := some sid }) := by
  show (if (b : Bool) ∧ r ≠ some sid then _ else _) = _
  rw [if_neg hc]

lemma runLoop_statusOf_not_mem (E : DeployEnv) (r : Option String) :
    ∀ (L : List String) (b : Bool) (st : DeployState) (T : String), T ∉ L →
      statusOfStep ((runRedeployLoop E r L b st).1).logger.steps T =
        statusOfStep st.logger.steps T := by
  intro L
  induction L with
  | nil => intro b st T _; rfl
  | cons sid rest ih =>
      intro b st T h
      have hT : T ≠ sid := fun he => h (he ▸ List.mem_cons_self sid rest)
      have hR : T ∉ rest := fun hm => h (List.mem_cons_of_mem _ hm)
      show statusOfStep ((if (b : Bool) ∧ r ≠ some sid then _ else _) : DeployState × Option String).1.logger.steps T = _
      by_cases hc : (b : Bool) ∧ r ≠ some sid
      · rw [if_pos hc]
        rw [ih true _ T hR, statusOfStep_skipStep_ne _ _ _ hT]
      · rw [if_neg hc]
        rcases hE : execRedeployStep E st sid with ⟨st1, e1⟩
        have hst1 : statusOfStep st1.logger.steps T = statusOfStep st.logger.steps T := by
          have := execStep_statusOf_ne E st sid T hT
          rw [hE] at this
          exact this
        cases e1
        · simp only []
          rw [ih false _ T hR]
          exact hst1
        · simp only []
          exact hst1

lemma runLoop_executed (E : DeployEnv) (r : Option String) :
    ∀ (L : List String) (b : Bool) (st : DeployState),
      ∃ l, ((runRedeployLoop E r L b st).1).executed = st.executed ++ l
        ∧ ∀ x ∈ l, x ∈ L := by
  intro L
  induction L with
  | nil => intro b st; exact ⟨[], by simp [runRedeployLoop], by simp⟩
  | cons sid rest ih =>
      intro b st
      show ∃ l, ((if (b : Bool) ∧ r ≠ some sid then _ else _) : DeployState × Option String).1.executed = _ ∧ _
      by_cases hc : (b : Bool) ∧ r ≠ some sid
      · rw [if_pos hc]
        rcases ih true { st with logger := st.logger.skipStep sid } with ⟨l, hl, hsub⟩
        exact ⟨l, hl, fun x hx => List.mem_cons_of_mem _ (hsub x hx)⟩
      · rw [if_neg hc]
        rcases hE : execRedeployStep E st sid with ⟨st1, e1⟩
        have hst1 : st1.executed = st.executed ++ [sid] := by
          have := execStep_executed E st sid
          rw [hE] at this
          exact this
        cases e1
        · simp only []
          rcases ih false { st1 with lastCompleted := some sid } with ⟨l, hl, hsub⟩
          refine ⟨[sid] ++ l, ?_, ?_⟩
          · rw [hl]
            show st1.executed ++ l = _
            rw [hst1, List.append_assoc]
          · intro x hx
            rcases List.mem_append.mp hx with hx | hx
            · rcases List.mem_singleton.mp hx with rfl
              exact List.mem_cons_self _ _
            · exact List.mem_cons_of_mem _ (hsub x hx)
        · simp only []
          exact ⟨[sid], hst1, fun x hx =>
            (List.mem_singleton.mp hx) ▸ List.mem_cons_self _ _⟩

lemma runLoop_ids (E : DeployEnv) (r : Option String) :
    ∀ (L : List String) (b : Bool) (st : DeployState),
      ((runRedeployLoop E r L b st).1).logger.steps.map (fun u => u.id) =
        st.logger.steps.map (fun u => u.id) := by
  intro L
  induction L with
  | nil => intro b st; rfl
  | cons sid rest ih =>
      intro b st
      show ((if (b : Bool) ∧ r ≠ some sid then _ else _) : DeployState × Option String).1.logger.steps.map _ = _
      by_cases hc : (b : Bool) ∧ r ≠ some sid
      · rw [if_pos hc]
        rw [ih true _, skipStep_ids]
      · rw [if_neg hc]
        rcases hE : execRedeployStep E st sid with ⟨st1, e1⟩
        have hst1 : st1.logger.steps.map (fun u => u.id) =
            st.logger.steps.map (fun u => u.id) := by
          have := execStep_ids E st sid
          rw [hE] at this
          exact this
        cases e1
        · simp only []
          rw [ih false _]
          exact hst1
        · simp only []
          exact hst1

lemma runLoop_all_skip (E : DeployEnv) (r : Option String) :
    ∀ (L : List String) (st : DeployState), (∀ sid ∈ L, r ≠ some sid) →
      runRedeployLoop E r L true st =
        ({ st with logger := skipAllLogger st.logger L }, none) := by
  intro L st h
  have hpre := runLoop_skip_prefix E r L [] st h
  rw [List.append_nil] at hpre
  rw [hpre]
  rfl

lemma stepLazyDetect_cache (st : DeployState) (sid : String)
    (hc1 : st.pmCache = true → 1 ≤ st.pmDetects)
    (hc2 : st.appCache = true → 1 ≤ st.appDetects) :
    ((stepLazyDetect st sid).pmCache = true → 1 ≤ (stepLazyDetect st sid).pmDetects)
    ∧ ((stepLazyDetect st sid).appCache = true → 1 ≤ (stepLazyDetect st sid).appDetects)
    ∧ st.pmDetects ≤ (stepLazyDetect st sid).pmDetects
    ∧ st.appDetects ≤ (stepLazyDetect st sid).appDetects
    ∧ (sid = "step-5" → (stepLazyDetect st sid).pmCache = true)
    ∧ (sid = "step-7" →
        (stepLazyDetect st sid).pmCache = true ∧ (stepLazyDetect st sid).appCache = true)
    ∧ (sid = "step-8" → (stepLazyDetect st sid).appCache = true) := by
  simp only [stepLazyDetect]
  split_ifs <;>
    refine ⟨?_, ?_, ?_, ?_, ?_, ?_, ?_⟩ <;>
    simp_all

lemma stepOnSuccess_inv (E : DeployEnv) (st : DeployState) (sid : String) (h : DeployInv st) :
    DeployInv (stepOnSuccess E st sid)
    ∧ st.pmDetects ≤ (stepOnSuccess E st sid).pmDetects
    ∧ st.appDetects ≤ (stepOnSuccess E st sid).appDetects := by
  rcases h with ⟨h1, h2, h3, h4, h5⟩
  unfold stepOnSuccess
  split_ifs <;>
    refine ⟨⟨?_, ?_, ?_, ?_, ?_⟩, ?_, ?_⟩ <;>
    simp_all

lemma execStep_inv (E : DeployEnv) (st0 : DeployState) (sid : String)
    (h : DeployInv st0) : DeployInv (execRedeployStep E st0 sid).1 := by
  rcases h with ⟨h1, h2, h3, h4, h5⟩
  have hA1 : (stepStarted st0 sid).pmCache = true → 1 ≤ (stepStarted st0 sid).pmDetects := h1
  have hA2 : (stepStarted st0 sid).appCache = true → 1 ≤ (stepStarted st0 sid).appDetects := h2
  rcases stepLazyDetect_cache (stepStarted st0 sid) sid hA1 hA2 with
    ⟨hL1, hL2, hLm1, hLm2, hL5, hL7, hL8⟩
  have hLexec : (stepLazyDetect (stepStarted st0 sid) sid).executed =
      st0.executed ++ [sid] := stepLazyDetect_executed _ _
  have hInvL : DeployInv (stepLazyDetect (stepStarted st0 sid) sid) := by
    refine ⟨hL1, hL2, ?_, ?_, ?_⟩
    · intro hx
      rw [hLexec] at hx
      rcases List.mem_append.mp hx with hold | hnew
      · exact le_trans (h3 hold) hLm1
      · rcases List.mem_singleton.mp hnew with he
        exact hL1 (hL5 he.symm)
    · intro hx
      rw [hLexec] at hx
      rcases List.mem_append.mp hx with hold | hnew
      · exact ⟨le_trans (h4 hold).1 hLm1, le_trans (h4 hold).2 hLm2⟩
      · rcases List.mem_singleton.mp hnew with he
        exact ⟨hL1 (hL7 he.symm).1, hL2 (hL7 he.symm).2⟩
    · intro hx
      rw [hLexec] at hx
      rcases List.mem_append.mp hx with hold | hnew
      · exact le_trans (h5 hold) hLm2
      · rcases List.mem_singleton.mp hnew with he
        exact hL2 (hL8 he.symm)
  unfold execRedeployStep
  rcases hE : E.fails sid with _ | m
  · simp only [hE]
    exact (stepOnSuccess_inv E _ sid hInvL).1
  · simp only [hE]
    exact hInvL

lemma runLoop_inv (E : DeployEnv) (r : Option String) :
    ∀ (L : List String) (b : Bool) (st : DeployState), DeployInv st →
      DeployInv ((runRedeployLoop E r L b st).1) := by
  intro L
  induction L with
  | nil => intro b st h; exact h
  | cons sid rest ih =>
      intro b st h
      show DeployInv ((if (b : Bool) ∧ r ≠ some sid then _ else _) : DeployState × Option String).1
      by_cases hc : (b : Bool) ∧ r ≠ some sid
      · rw [if_pos hc]
        exact ih true _ h
      · rw [if_neg hc]
        rcases hE : execRedeployStep E st sid with ⟨st1, e1⟩
        have hst1 : DeployInv st1 := by
          have := execStep_inv E st sid h
          rw [hE] at this
          exact this
        cases e1
        · simp only []
          exact ih false _ hst1
        · simp only []
          exact hst1

lemma deployFinish_props (out : DeployState × Option String)
    (hnd : ((out.1).logger.steps.map (fun u => u.id)).Nodup) :
    (deployFinish out).executed = out.1.executed
    ∧ (deployFinish out).pmDetects = out.1.pmDetects
    ∧ (deployFinish out).appDetects = out.1.appDetects
    ∧ ∀ T, statusOfStep out.1.logger.steps T = some StepStatus.skipped →
        (deployFinish out).statusOf T = some StepStatus.skipped := by
  rcases out with ⟨st, e⟩
  cases e
  · exact ⟨rfl, rfl, rfl, fun T h => h⟩
  · refine ⟨rfl, rfl, rfl, fun T h => ?_⟩
    exact failRunning_statusOf_skipped st.logger _ T hnd h

set_option maxHeartbeats 1000000 in
lemma c5_run_eval (msg : String) (b : Bool) :
    deployProject
      { fails := fun sid => if sid = "step-7" then some msg else none, ormDetected := b }
      none =
    { success := false, depStatus := "FAILED", projStatus := "FAILED",
      lastCompletedStep := some "step-7",
      steps := [
        { id := "step-0", name := "Stop process", status := StepStatus.success },
        { id := "step-1", name := "Pull latest code", status := StepStatus.success },
        { id := "step-2", name := "Detect package manager", status := StepStatus.success },
        { id := "step-3", name := "Detect app type", status := StepStatus.success },
        { id := "step-4", name := "Update .env file", status := StepStatus.success },
        { id := "step-5", name := "Install dependencies", status := StepStatus.success },
        { id := "step-6", name := "ORM setup",
          status := if b then StepStatus.success else StepStatus.skipped },
        { id := "step-7", name := "Build application", status := StepStatus.failed,
          error := some msg },
        { id := "step-8", name := "Restart application", status := StepStatus.pending }],
      executed := ["step-0", "step-1", "step-2", "step-3", "step-4", "step-5", "step-6", "step-7"],
      pmDetects := 1, appDetects := 1, restartCmds := 0, pm2Stopped := true } := by
  rw [deployProject_eq]
  cases b
  · rfl
  · rfl

/-- C5: the claim as stated is false.  In a redeploy whose build step
fails, the failure handler stores getFailedStepId in lastCompletedStep, so
the recorded value is the id of the failed build step (step-7), not the id
of the install step (step-5) that last completed successfully. -/
theorem c5_lastcompleted_counterexample :
    (deployProject
        { fails := fun sid => if sid = "step-7" then some "Build failed: boom" else none,
          ormDetected := false } none).statusOf "step-7" = some StepStatus.failed
    ∧ (deployProject
        { fails := fun sid => if sid = "step-7" then some "Build failed: boom" else none,
          ormDetected := false } none).statusOf "step-5" = some StepStatus.success
    ∧ (deployProject
        { fails := fun sid => if sid = "step-7" then some "Build failed: boom" else none,
          ormDetected := false } none).depStatus = "FAILED"
    ∧ (deployProject
        { fails := fun sid => if sid = "step-7" then some "Build failed: boom" else none,
          ormDetected := false } none).lastCompletedStep ≠ some "step-5" := by
  decide

/-- C5 (amended): for every redeploy in which the build step fails (and
every earlier step succeeds), the deployment ends FAILED, the project ends
FAILED, lastCompletedStep equals the failed build step id step-7 as
returned by getFailedStepId, the install step ended success, and the
process supervisor is left stopped with no restart command issued. -/
theorem c5_build_failure_outcome (msg : String) (b : Bool) :
    (deployProject
        { fails := fun sid => if sid = "step-7" then some msg else none,
          ormDetected := b } none).depStatus = "FAILED"
    ∧ (deployProject
        { fails := fun sid => if sid = "step-7" then some msg else none,
          ormDetected := b } none).projStatus = "FAILED"
    ∧ (deployProject
        { fails := fun sid => if sid = "step-7" then some msg else none,
          ormDetected := b } none).success = false
    ∧ (deployProject
        { fails := fun sid => if sid = "step-7" then some msg else none,
          ormDetected := b } none).lastCompletedStep = some "step-7"
    ∧ (deployProject
        { fails := fun sid => if sid = "step-7" then some msg else none,
          ormDetected := b } none).statusOf "step-7" = some StepStatus.failed
    ∧ (deployProject
        { fails := fun sid => if sid = "step-7" then some msg else none,
          ormDetected := b } none).statusOf "step-5" = some StepStatus.success
    ∧ (deployProject
        { fails := fun sid => if sid = "step-7" then some msg else none,
          ormDetected := b } none).restartCmds = 0
    ∧ (deployProject
        { fails := fun sid => if sid = "step-7" then some msg else none,
          ormDetected := b } none).pm2Stopped = true
    ∧ "step-8" ∉ (deployProject
        { fails := fun sid => if sid = "step-7" then some msg else none,
          ormDetected := b } none).executed := by
  refine ⟨?_, ?_, ?_, ?_, ?_, ?_, ?_, ?_, ?_⟩ <;> (rw [c5_run_eval msg b] <;> try rfl)
  show "step-8" ∉ ["step-0", "step-1", "step-2", "step-3", "step-4", "step-5", "step-6", "step-7"]
  decide

/-- C6: the install and build remote commands of createProject have their
exit codes ignored.  At an environment where both exit nonzero and every
other remote operation succeeds, the create run marks both steps success
and reaches the success path, contradicting the claim that a nonzero exit
fails the create with the step marked failed. -/
theorem c6_create_ignores_install_build_exit :
    (createProject
        { cloneOk := true, workDirExists := true, appTypeFound := true,
          envWriteExit := 0, envChmodExit := 0, installExit := 1, ormDetected := false,
          ormOk := true, buildExit := 1, ecoWriteExit := 0, pm2Online := true,
          portBound := true }
        { mapFile := "", nginxValid := fun _ => true, reloadOk := true }
        "demo" "ex" 3005).success = true
    ∧ statusOfStep (createProject
        { cloneOk := true, workDirExists := true, appTypeFound := true,
          envWriteExit := 0, envChmodExit := 0, installExit := 1, ormDetected := false,
          ormOk := true, buildExit := 1, ecoWriteExit := 0, pm2Online := true,
          portBound := true }
        { mapFile := "", nginxValid := fun _ => true, reloadOk := true }
        "demo" "ex" 3005).steps "step-4" = some StepStatus.success
    ∧ statusOfStep (createProject
        { cloneOk := true, workDirExists := true, appTypeFound := true,
          envWriteExit := 0, envChmodExit := 0, installExit := 1, ormDetected := false,
          ormOk := true, buildExit := 1, ecoWriteExit := 0, pm2Online := true,
          portBound := true }
        { mapFile := "", nginxValid := fun _ => true, reloadOk := true }
        "demo" "ex" 3005).steps "step-6" = some StepStatus.success
    ∧ (createProject
        { cloneOk := true, workDirExists := true, appTypeFound := true,
          envWriteExit := 0, envChmodExit := 0, installExit := 1, ormDetected := false,
          ormOk := true, buildExit := 1, ecoWriteExit := 0, pm2Online := true,
          portBound := true }
        { mapFile := "", nginxValid := fun _ => true, reloadOk := true }
        "demo" "ex" 3005).cleanupRan = false := by
  decide

/-- C9: the claim as stated is false.  When the workflow-file step fails,
the fourth step (fast-forwarding the host clone) is not attempted at all,
so a step failure does abort a subsequent step. -/
theorem c9_abort_counterexample :
    (setupCICD
        { deployScriptErr := none, secretsResult := Except.ok ([], []),
          workflowErr := some "boom", syncErr := none }).attempted =
      ["deploy script", "secrets", "workflow"]
    ∧ "sync" ∉ (setupCICD
        { deployScriptErr := none, secretsResult := Except.ok ([], []),
          workflowErr := some "boom", syncErr := none }).attempted
    ∧ (setupCICD
        { deployScriptErr := none, secretsResult := Except.ok ([], []),
          workflowErr := some "boom", syncErr := none }).errors ≠ [] := by
  decide

/-- C9 (amended): setupCICD attempts the deploy-script, secrets and
workflow steps in that fixed order regardless of earlier failures,
attempts the host-clone fast-forward exactly when the workflow step
succeeded, accumulates each failure in order into the error list, and
returns success exactly when the error list is empty. -/
theorem c9_step_order_and_errors (E : CicdEnv) :
    (setupCICD E).attempted =
      ["deploy script", "secrets", "workflow"] ++
        (if (setupCICD E).workflowCreated then ["sync"] else [])
    ∧ (setupCICD E).workflowCreated = E.workflowErr.isNone
    ∧ (setupCICD E).deployScriptCreated = E.deployScriptErr.isNone
    ∧ (setupCICD E).success = (setupCICD E).errors.isEmpty
    ∧ (setupCICD E).errors =
        (match E.deployScriptErr with
          | some m => ["Deploy script: " ++ m]
          | none => []) ++
        (match E.secretsResult with
          | Except.ok x => x.2
          | Except.error m => ["Secrets: " ++ m]) ++
        (match E.workflowErr with
          | some m => ["Workflow: " ++ m]
          | none => []) ++
        (if E.workflowErr.isNone then
          (match E.syncErr with
            | some m => ["VPS sync: " ++ m]
            | none => [])
         else []) := by
  rcases E with ⟨ds, sr, wf, sy⟩
  cases ds <;> rcases sr with ⟨set, errs⟩ | m <;> cases wf <;> cases sy <;>
    simp [setupCICD]

lemma classifyDiscovered_eq (db : List DbProject) (l : List DiscoveredProject) :
    classifyDiscovered db l =
      (l.filter (fun d => (dbBySubdomain db d.subdomain).isNone),
       l.filterMap (fun d =>
          match dbBySubdomain db d.subdomain with
          | none => none
          | some p =>
            if p.status ≠ mapPm2ToProjectStatus d.pm2Status then
              some { discovered := d, dbProjectId := p.id, dbStatus := p.status,
                     suggestedStatus := mapPm2ToProjectStatus d.pm2Status,
                     statusMismatch := true }
            else none),
       l.filterMap (fun d =>
          match dbBySubdomain db d.subdomain with
          | none => none
          | some p =>
            if p.status ≠ mapPm2ToProjectStatus d.pm2Status then none
            else some { id := p.id, subdomain := p.subdomain })) := by
  induction l with
  | nil => rfl
  | cons d rest ih =>
      rcases h : dbBySubdomain db d.subdomain with _ | p
      · simp [classifyDiscovered, ih, h, List.filter_cons, List.filterMap_cons]
      · by_cases hm : p.status = mapPm2ToProjectStatus d.pm2Status <;>
          simp [classifyDiscovered, ih, h, hm, List.filter_cons, List.filterMap_cons]

/-- C8: reconcileProjects partitions its inputs as claimed: a discovered
project with no record goes to toImport, one whose record status differs
from the mapped supervisor status goes to toReconcile, one whose statuses
agree goes to inSync (the three conditions are mutually exclusive and the
three lists are exactly the corresponding filters of the discovered list),
every record whose subdomain was not discovered goes to orphaned, and the
supervisor statuses map online to ACTIVE, stopped to STOPPED, errored to
FAILED and not-found to STOPPED. -/
theorem c8_reconcile_partition (discovered : List DiscoveredProject)
    (db : List DbProject) :
    (reconcileProjects discovered db).toImport =
      discovered.filter (fun d => (dbBySubdomain db d.subdomain).isNone)
    ∧ (reconcileProjects discovered db).toReconcile =
      discovered.filterMap (fun d =>
        match dbBySubdomain db d.subdomain with
        | none => none
        | some p =>
          if p.status ≠ mapPm2ToProjectStatus d.pm2Status then
            some { discovered := d, dbProjectId := p.id, dbStatus := p.status,
                   suggestedStatus := mapPm2ToProjectStatus d.pm2Status,
                   statusMismatch := true }
          else none)
    ∧ (reconcileProjects discovered db).inSync =
      discovered.filterMap (fun d =>
        match dbBySubdomain db d.subdomain with
        | none => none
        | some p =>
          if p.status ≠ mapPm2ToProjectStatus d.pm2Status then none
          else some { id := p.id, subdomain := p.subdomain })
    ∧ (reconcileProjects discovered db).orphaned =
      (db.filter (fun p => !(discovered.any (fun d => d.subdomain = p.subdomain)))).map
        (fun p => { id := p.id, subdomain := p.subdomain, name := p.name,
                    status := p.status })
    ∧ mapPm2ToProjectStatus Pm2Status.online = ProjectStatus.ACTIVE
    ∧ mapPm2ToProjectStatus Pm2Status.stopped = ProjectStatus.STOPPED
    ∧ mapPm2ToProjectStatus Pm2Status.errored = ProjectStatus.FAILED
    ∧ mapPm2ToProjectStatus Pm2Status.notFound = ProjectStatus.STOPPED := by
  have h := classifyDiscovered_eq db discovered
  refine ⟨?_, ?_, ?_, rfl, rfl, rfl, rfl, rfl⟩ <;>
    simp [reconcileProjects, h]

/-- C7: detector families are consulted in fixed order with the first
matching member winning.  The npm fallback detector matches every input,
so package-manager detection always returns a provider (pnpm when its
lockfile is present, else yarn when its lockfile is present, else npm);
application-framework detection returns the fatal unsupported-app-type
error exactly when no member matches, with Next.js taking priority over
Vite; ORM detection returns null when no member matches. -/
theorem c7_detector_families (fs : RemoteFS) :
    NpmProvider.detect fs = true
    ∧ (PACKAGE_MANAGERS.find? (fun pm => pm.detect fs)).isSome = true
    ∧ detectPackageManager fs =
        (if PnpmProvider.detect fs then PnpmProvider
         else if YarnProvider.detect fs then YarnProvider
         else NpmProvider)
    ∧ ((NextJsApp.detect fs = false ∧ ViteApp.detect fs = false) →
        detectAppType fs =
          Except.error "Unsupported app type. Currently only Next.js and Vite are supported.")
    ∧ (NextJsApp.detect fs = true → detectAppType fs = Except.ok NextJsApp)
    ∧ (NextJsApp.detect fs = false → ViteApp.detect fs = true →
        detectAppType fs = Except.ok ViteApp)
    ∧ (PrismaOrm.detect fs = false → detectOrm fs = none)
    ∧ (PrismaOrm.detect fs = true → detectOrm fs = some PrismaOrm) := by
  refine ⟨rfl, ?_, ?_, ?_, ?_, ?_, ?_, ?_⟩
  · cases hp : PnpmProvider.detect fs <;> cases hy : YarnProvider.detect fs <;>
      simp [PACKAGE_MANAGERS, List.find?, hp, hy, NpmProvider]
  · cases hp : PnpmProvider.detect fs <;> cases hy : YarnProvider.detect fs <;>
      simp [detectPackageManager, PACKAGE_MANAGERS, List.find?, hp, hy, NpmProvider]
  · intro h
    simp [detectAppType, APP_TYPES, List.find?, h.1, h.2]
  · intro h
    simp [detectAppType, APP_TYPES, List.find?, h]
  · intro h1 h2
    simp [detectAppType, APP_TYPES, List.find?, h1, h2]
  · intro h
    simp [detectOrm, ORM_TOOLS, List.find?, h]
  · intro h
    simp [detectOrm, ORM_TOOLS, List.find?, h]

/-- C7 witness: the theorem applied at a filesystem with no lockfiles, no
framework dependency and no ORM, discharging the no-match hypotheses. -/
theorem c7_detector_families_witness :
    detectAppType
        { hasFile := fun _ => false, deps := [], pkgParses := true, hasPrismaDir := false } =
      Except.error "Unsupported app type. Currently only Next.js and Vite are supported."
    ∧ detectOrm
        { hasFile := fun _ => false, deps := [], pkgParses := true, hasPrismaDir := false } = none
    ∧ detectPackageManager
        { hasFile := fun _ => false, deps := [], pkgParses := true, hasPrismaDir := false } =
      NpmProvider := by
  refine ⟨(c7_detector_families _).2.2.2.1 ⟨by decide, by decide⟩,
    (c7_detector_families _).2.2.2.2.2.2.1 (by decide), ?_⟩
  have h := (c7_detector_families
    { hasFile := fun _ => false, deps := [], pkgParses := true, hasPrismaDir := false }).2.2.1
  simpa using h

/-- C3: addPortMapping is idempotent.  For a fresh, well-formed mapping
line added to a world whose validation and reload succeed: the first call
succeeds; the resulting file holds exactly one line whose trimmed text is
the mapping line; every line for the same full host is that exact line
(a stale line with a different port was removed, not duplicated); and a
second identical call is an exact-match no-op returning the state
unchanged, so it performs no write and no proxy reload. -/
theorem c3_add_port_mapping_idempotent (w : World) (s d : String) (p : Nat)
    (hvalid : ∀ c, w.nginxValid c = true)
    (hreload : w.reloadOk = true)
    (hfresh : (jsSplitNl w.mapFile).any
        (fun l => jsTrim l == s ++ "." ++ d ++ " " ++ toString p ++ ";") = false)
    (htrim : jsTrim (s ++ "." ++ d ++ " " ++ toString p ++ ";") =
        s ++ "." ++ d ++ " " ++ toString p ++ ";")
    (hnl : '\n' ∉ (s ++ "." ++ d ++ " " ++ toString p ++ ";").data) :
    (addPortMapping w s d p).2 = none
    ∧ countExactLine (addPortMapping w s d p).1.mapFile
        (s ++ "." ++ d ++ " " ++ toString p ++ ";") = 1
    ∧ (∀ l ∈ jsSplitNl (addPortMapping w s d p).1.mapFile,
        jsStartsWith (jsTrim l) (s ++ "." ++ d ++ " ") = true →
        jsTrim l = s ++ "." ++ d ++ " " ++ toString p ++ ";")
    ∧ addPortMapping (addPortMapping w s d p).1 s d p = ((addPortMapping w s d p).1, none) := by
  have hW : addPortMapping w s d p =
      ({ w with
          mapFile := joinNl
            ((jsSplitNl w.mapFile).filter
              (fun l => !(jsStartsWith (jsTrim l) (s ++ "." ++ d ++ " "))) ++
            [s ++ "." ++ d ++ " " ++ toString p ++ ";"]) ++ "\n",
          writes := w.writes + 1, reloadCmds := w.reloadCmds + 1 }, none) := by
    simp [addPortMapping, writeMapFile, testNginxConfig, reloadNginx, hfresh, hvalid, hreload]
  have hmemfil : ∀ l ∈ (jsSplitNl w.mapFile).filter
      (fun l => !(jsStartsWith (jsTrim l) (s ++ "." ++ d ++ " "))), '\n' ∉ l.data := by
    intro l hl
    exact mem_jsSplitNl_no_nl w.mapFile l (List.mem_of_mem_filter hl)
  have hsplit : jsSplitNl (addPortMapping w s d p).1.mapFile =
      (jsSplitNl w.mapFile).filter
        (fun l => !(jsStartsWith (jsTrim l) (s ++ "." ++ d ++ " "))) ++
      [s ++ "." ++ d ++ " " ++ toString p ++ ";", ""] := by
    rw [hW]
    show jsSplitNl (joinNl _ ++ "\n") = _
    rw [jsSplitNl_joinNl _ (by simp) ?hnlmem]
    case hnlmem =>
      intro x hx
      rcases List.mem_append.mp hx with hx | hx
      · exact hmemfil x hx
      · rcases List.mem_singleton.mp hx with rfl
        exact hnl
    rw [List.append_assoc]
    rfl
  have hmapne : (s ++ "." ++ d ++ " " ++ toString p ++ ";") ≠ "" := by
    intro he
    have : (s ++ "." ++ d ++ " " ++ toString p ++ ";").data = [] := by rw [he]
    rw [String.data_append] at this
    simp at this
  have hstarts : jsStartsWith (s ++ "." ++ d ++ " " ++ toString p ++ ";")
      (s ++ "." ++ d ++ " ") = true := by
    show listStartsWith _ _ = true
    have hdata : (s ++ "." ++ d ++ " " ++ toString p ++ ";").data =
        (s ++ "." ++ d ++ " ").data ++ ((toString p).data ++ [';']) := by
      simp [String.data_append]
    rw [hdata]
    exact listStartsWith_append _ _
  have hfl : ∀ l ∈ (jsSplitNl w.mapFile).filter
      (fun l => !(jsStartsWith (jsTrim l) (s ++ "." ++ d ++ " "))),
      (jsTrim l == s ++ "." ++ d ++ " " ++ toString p ++ ";") = false := by
    intro l hl
    have hpred := List.of_mem_filter hl
    simp only [Bool.not_eq_true'] at hpred
    by_contra hne
    simp only [Bool.not_eq_false, beq_iff_eq] at hne
    rw [hne] at hpred
    rw [hstarts] at hpred
    exact Bool.noConfusion hpred
  have htrue : (jsTrim (s ++ "." ++ d ++ " " ++ toString p ++ ";") ==
      s ++ "." ++ d ++ " " ++ toString p ++ ";") = true := by
    rw [htrim]
    simp
  have hempty : ((jsTrim "" : String) == s ++ "." ++ d ++ " " ++ toString p ++ ";") = false := by
    show (("" : String) == s ++ "." ++ d ++ " " ++ toString p ++ ";") = false
    simp only [beq_eq_false_iff_ne, ne_eq]
    exact fun he => hmapne he.symm
  refine ⟨by rw [hW], ?_, ?_, ?_⟩
  · show countExactLine (addPortMapping w s d p).1.mapFile _ = 1
    unfold countExactLine
    rw [hsplit, List.countP_append]
    have h0 : ((jsSplitNl w.mapFile).filter
        (fun l => !(jsStartsWith (jsTrim l) (s ++ "." ++ d ++ " ")))).countP
        (fun l => jsTrim l == s ++ "." ++ d ++ " " ++ toString p ++ ";") = 0 := by
      rw [List.countP_eq_zero]
      intro l hl
      rw [hfl l hl]
      simp
    rw [h0]
    simp [List.countP_cons, htrue, hempty]
  · intro l hl hstart
    rw [hsplit] at hl
    rcases List.mem_append.mp hl with hl | hl
    · have := hfl l hl
      have hpred := List.of_mem_filter hl
      simp only [Bool.not_eq_true'] at hpred
      rw [hstart] at hpred
      exact Bool.noConfusion hpred
    · rcases hl with _ | ⟨_, hl⟩
      · exact htrim
      · rcases hl with _ | ⟨_, hl⟩
        · exfalso
          have hempty2 : jsTrim "" = "" := rfl
          rw [hempty2] at hstart
          have hpd : (s ++ "." ++ d ++ " ").data = (s ++ "." ++ d).data ++ [' '] := by
            simp [String.data_append]
          rcases hq : (s ++ "." ++ d ++ " ").data with _ | ⟨c0, rest⟩
          · rw [hq] at hpd
            simp at hpd
          · rw [show jsStartsWith "" (s ++ "." ++ d ++ " ") =
                listStartsWith [] (s ++ "." ++ d ++ " ").data from rfl, hq] at hstart
            exact Bool.noConfusion hstart
        · cases hl
  · have hany : ((jsSplitNl (addPortMapping w s d p).1.mapFile).any
        (fun l => jsTrim l == s ++ "." ++ d ++ " " ++ toString p ++ ";")) = true := by
      rw [hsplit]
      refine List.any_eq_true.mpr ⟨s ++ "." ++ d ++ " " ++ toString p ++ ";", ?_, htrue⟩
      simp
    conv_lhs => rw [addPortMapping]
    rw [if_pos hany]

/-- C3 witness: the idempotence theorem applied to a concrete routing
table holding a stale line for the same host with a different port. -/
theorem c3_add_port_mapping_idempotent_witness :
    countExactLine
      (addPortMapping
        { mapFile := "demo.ex 3001;\nother.ex 3002;", nginxValid := fun _ => true,
          reloadOk := true } "demo" "ex" 3005).1.mapFile
      ("demo" ++ "." ++ "ex" ++ " " ++ toString 3005 ++ ";") = 1
    ∧ addPortMapping
        (addPortMapping
          { mapFile := "demo.ex 3001;\nother.ex 3002;", nginxValid := fun _ => true,
            reloadOk := true } "demo" "ex" 3005).1 "demo" "ex" 3005 =
      ((addPortMapping
          { mapFile := "demo.ex 3001;\nother.ex 3002;", nginxValid := fun _ => true,
            reloadOk := true } "demo" "ex" 3005).1, none) := by
  have h := c3_add_port_mapping_idempotent
    { mapFile := "demo.ex 3001;\nother.ex 3002;", nginxValid := fun _ => true,
      reloadOk := true } "demo" "ex" 3005
    (fun _ => rfl) rfl (by decide) (by decide) (by decide)
  exact ⟨h.2.1, h.2.2.2⟩

end Eeljet

namespace Eeljet

/-- C4: resume invariant.  For any split of the canonical redeploy step
order as P ++ S :: Q, running deployProject with resumeFromStep = S marks
every step of P skipped and executes none of them, execution begins exactly
at S, and whenever the install, build or restart body has run, the lazy
re-detections it depends on (package manager, app type) have been performed
at least once. -/
theorem c4_resume_invariant (E : DeployEnv) (S : String) (P Q : List String)
    (horder : redeployStepOrder = P ++ S :: Q) :
    (∀ T ∈ P, (deployProject E (some S)).statusOf T = some StepStatus.skipped
      ∧ T ∉ (deployProject E (some S)).executed)
    ∧ (deployProject E (some S)).executed.head? = some S
    ∧ ("step-5" ∈ (deployProject E (some S)).executed →
        1 ≤ (deployProject E (some S)).pmDetects)
    ∧ ("step-7" ∈ (deployProject E (some S)).executed →
        1 ≤ (deployProject E (some S)).pmDetects ∧ 1 ≤ (deployProject E (some S)).appDetects)
    ∧ ("step-8" ∈ (deployProject E (some S)).executed →
        1 ≤ (deployProject E (some S)).appDetects) := by
  have hS : S ∈ redeployStepOrder := by
    rw [horder]; exact List.mem_append_right _ (List.mem_cons_self _ _)
  have hSne : S ≠ "" := by
    intro he
    rw [he] at hS
    revert hS
    decide
  have htr : truthy (some S) = true := by
    simp [truthy, hSne]
  have hnd : (P ++ S :: Q).Nodup := by
    rw [← horder]; decide
  have hdisj := List.disjoint_of_nodup_append hnd
  have hSP : S ∉ P := fun hmem => hdisj hmem (List.mem_cons_self _ _)
  have hPQ : ∀ T ∈ P, T ∉ S :: Q := fun T hT hT2 => hdisj hT hT2
  have hfind : ∀ T ∈ redeployStepOrder, (findStep redeployInitLogger.steps T).isSome = true := by
    decide
  have hidmap : redeployInitLogger.steps.map (fun u => u.id) = redeployStepOrder := by
    decide
  have hndids : (redeployInitLogger.steps.map (fun u => u.id)).Nodup := by
    decide
  -- run the pipeline
  have hmain : deployProject E (some S) =
      deployFinish (runRedeployLoop E (some S) (S :: Q) true
        { logger := skipAllLogger redeployInitLogger P, lastCompleted := none, executed := [],
          pmCache := false, appCache := false, pmDetects := 0, appDetects := 0,
          restartCmds := 0, pm2Stopped := false }) := by
    rw [deployProject_eq, htr, horder,
      runLoop_skip_prefix E (some S) P (S :: Q) _
        (fun sid hsid he => hSP (Option.some.inj he ▸ hsid))]
  rw [hmain]
  set stMid : DeployState :=
    { logger := skipAllLogger redeployInitLogger P, lastCompleted := none, executed := [],
      pmCache := false, appCache := false, pmDetects := 0, appDetects := 0,
      restartCmds := 0, pm2Stopped := false } with hstMid
  have hInvMid : DeployInv stMid := by
    refine ⟨?_, ?_, ?_, ?_, ?_⟩ <;> intro hx <;> rw [hstMid] at hx <;> simp at hx
  have hcond : ¬((true : Bool) ∧ (some S : Option String) ≠ some S) := by simp
  rw [runLoop_cons_exec E (some S) S Q true stMid hcond]
  rcases hE : execRedeployStep E stMid S with ⟨st1, e1⟩
  have hst1exec : st1.executed = [S] := by
    have hx := execStep_executed E stMid S
    rw [hE] at hx
    rw [hx, hstMid]
    rfl
  have hst1ids : st1.logger.steps.map (fun u => u.id) = redeployStepOrder := by
    have hx := execStep_ids E stMid S
    rw [hE] at hx
    rw [hx, hstMid]
    show (skipAllLogger redeployInitLogger P).steps.map (fun u => u.id) = _
    rw [skipAllLogger_ids, hidmap]
  have hst1status : ∀ T ∈ P, statusOfStep st1.logger.steps T = some StepStatus.skipped := by
    intro T hT
    have hTneS : T ≠ S := fun he => hSP (he ▸ hT)
    have hx := execStep_statusOf_ne E stMid S T hTneS
    rw [hE] at hx
    rw [hx, hstMid]
    show statusOfStep (skipAllLogger redeployInitLogger P).steps T = _
    exact skipAllLogger_statusOf_mem P redeployInitLogger T hT
      (hfind T (by rw [horder]; exact List.mem_append_left _ hT))
  have hInv1 : DeployInv st1 := by
    have hx := execStep_inv E stMid S hInvMid
    rw [hE] at hx
    exact hx
  rcases hInv1 with ⟨hi1, hi2, hi3, hi4, hi5⟩
  cases e1 with
  | some m =>
      simp only []
      have hndF : (((st1, some m) : DeployState × Option String).1.logger.steps.map
          (fun u => u.id)).Nodup := by
        show (st1.logger.steps.map (fun u => u.id)).Nodup
        rw [hst1ids]
        decide
      rcases deployFinish_props (st1, some m) hndF with ⟨hfe, hfp, hfa, hfs⟩
      refine ⟨?_, ?_, ?_, ?_, ?_⟩
      · intro T hT
        refine ⟨hfs T (hst1status T hT), ?_⟩
        rw [hfe]
        show T ∉ st1.executed
        rw [hst1exec]
        simp only [List.mem_singleton]
        exact fun he => hSP (he ▸ hT)
      · rw [hfe]
        show st1.executed.head? = some S
        rw [hst1exec]
        rfl
      · intro hx
        rw [hfp]
        exact hi3 (by rw [hfe] at hx; exact hx)
      · intro hx
        rw [hfp, hfa]
        exact hi4 (by rw [hfe] at hx; exact hx)
      · intro hx
        rw [hfa]
        exact hi5 (by rw [hfe] at hx; exact hx)
  | none =>
      simp only []
      rcases hF : runRedeployLoop E (some S) Q false { st1 with lastCompleted := some S }
        with ⟨stF, e2⟩
      have hFids : stF.logger.steps.map (fun u => u.id) = redeployStepOrder := by
        have hx := runLoop_ids E (some S) Q false { st1 with lastCompleted := some S }
        rw [hF] at hx
        rw [hx]
        exact hst1ids
      have hFstatus : ∀ T ∈ P, statusOfStep stF.logger.steps T = some StepStatus.skipped := by
        intro T hT
        have hx := runLoop_statusOf_not_mem E (some S) Q false
          { st1 with lastCompleted := some S } T
          (fun hq => hPQ T hT (List.mem_cons_of_mem _ hq))
        rw [hF] at hx
        rw [hx]
        exact hst1status T hT
      have hFexec : ∃ l, stF.executed = [S] ++ l ∧ ∀ x ∈ l, x ∈ Q := by
        rcases runLoop_executed E (some S) Q false { st1 with lastCompleted := some S }
          with ⟨l, hl, hsub⟩
        rw [hF] at hl
        refine ⟨l, ?_, hsub⟩
        rw [hl]
        show st1.executed ++ l = _
        rw [hst1exec]
      have hFInv : DeployInv stF := by
        have hx := runLoop_inv E (some S) Q false { st1 with lastCompleted := some S }
          ⟨hi1, hi2, hi3, hi4, hi5⟩
        rw [hF] at hx
        exact hx
      rcases hFInv with ⟨hj1, hj2, hj3, hj4, hj5⟩
      have hndF : (((stF, e2) : DeployState × Option String).1.logger.steps.map
          (fun u => u.id)).Nodup := by
        show (stF.logger.steps.map (fun u => u.id)).Nodup
        rw [hFids]
        decide
      rcases deployFinish_props (stF, e2) hndF with ⟨hfe, hfp, hfa, hfs⟩
      rcases hFexec with ⟨l, hlE, hlQ⟩
      refine ⟨?_, ?_, ?_, ?_, ?_⟩
      · intro T hT
        refine ⟨hfs T (hFstatus T hT), ?_⟩
        rw [hfe]
        show T ∉ stF.executed
        rw [hlE]
        intro hmem
        rcases List.mem_append.mp hmem with hmem | hmem
        · exact hSP ((List.mem_singleton.mp hmem) ▸ hT)
        · exact hPQ T hT (List.mem_cons_of_mem _ (hlQ T hmem))
      · rw [hfe]
        show stF.executed.head? = some S
        rw [hlE]
        rfl
      · intro hx
        rw [hfp]
        exact hj3 (by rw [hfe] at hx; exact hx)
      · intro hx
        rw [hfp, hfa]
        exact hj4 (by rw [hfe] at hx; exact hx)
      · intro hx
        rw [hfa]
        exact hj5 (by rw [hfe] at hx; exact hx)

end Eeljet

namespace Eeljet

/-- Witness for C4 at a concrete split: resuming from step-5 leaves
step-2 skipped and starts execution at step-5. -/
theorem c4_resume_invariant_witness :
    (deployProject { fails := fun _ => none, ormDetected := false }
        (some "step-5")).statusOf "step-2" = some StepStatus.skipped
    ∧ (deployProject { fails := fun _ => none, ormDetected := false }
        (some "step-5")).executed.head? = some "step-5" := by
  have h := c4_resume_invariant { fails := fun _ => none, ormDetected := false } "step-5"
    ["step-0", "step-1", "step-2", "step-3", "step-4"] ["step-6", "step-7", "step-8"]
    (by decide)
  exact ⟨(h.1 "step-2" (by decide)).1, h.2.1⟩

set_option maxHeartbeats 1600000 in
/-- C10: the claim as stated is false.  resumeFromStep = "" matches no
canonical step id, yet the empty string is falsy in JavaScript, so skipping
is never enabled: every step runs (step-0 ends success, the executed list
is non-empty) instead of being marked skipped. -/
theorem c10_empty_resume_counterexample :
    (deployProject { fails := fun _ => none, ormDetected := false } (some "")).statusOf "step-0"
      = some StepStatus.success
    ∧ (deployProject { fails := fun _ => none, ormDetected := false }
        (some "")).executed ≠ [] := by
  rw [deployProject_eq]
  constructor
  · rfl
  · intro h
    exact absurd h (by decide)

/-- C10 (amended): if resumeFromStep is a non-empty identifier matching
none of the canonical step ids, every step ends marked skipped, nothing is
executed and no remote command or detection runs, yet the run terminates on
the success path: deployment SUCCESS, project ACTIVE, lastCompletedStep
none. -/
theorem c10_unknown_resume (E : DeployEnv) (s : String)
    (h1 : s ≠ "") (h2 : s ∉ redeployStepOrder) :
    (∀ T ∈ redeployStepOrder,
        (deployProject E (some s)).statusOf T = some StepStatus.skipped)
    ∧ (deployProject E (some s)).executed = []
    ∧ (deployProject E (some s)).success = true
    ∧ (deployProject E (some s)).depStatus = "SUCCESS"
    ∧ (deployProject E (some s)).projStatus = "ACTIVE"
    ∧ (deployProject E (some s)).lastCompletedStep = none
    ∧ (deployProject E (some s)).restartCmds = 0
    ∧ (deployProject E (some s)).pmDetects = 0
    ∧ (deployProject E (some s)).appDetects = 0 := by
  have htr : truthy (some s) = true := by simp [truthy, h1]
  have hfind : ∀ T ∈ redeployStepOrder, (findStep redeployInitLogger.steps T).isSome = true := by
    decide
  rw [deployProject_eq, htr,
    runLoop_all_skip E (some s) redeployStepOrder _
      (fun sid hsid he => h2 (by rw [Option.some.inj he]; exact hsid))]
  refine ⟨?_, rfl, rfl, rfl, rfl, rfl, rfl, rfl, rfl⟩
  intro T hT
  show statusOfStep (skipAllLogger redeployInitLogger redeployStepOrder).steps T
    = some StepStatus.skipped
  exact skipAllLogger_statusOf_mem redeployStepOrder redeployInitLogger T hT (hfind T hT)

/-- Witness for C10 at the concrete identifier "bogus". -/
theorem c10_unknown_resume_witness :
    (deployProject { fails := fun _ => none, ormDetected := false }
        (some "bogus")).statusOf "step-0" = some StepStatus.skipped
    ∧ (deployProject { fails := fun _ => none, ormDetected := false }
        (some "bogus")).executed = []
    ∧ (deployProject { fails := fun _ => none, ormDetected := false }
        (some "bogus")).projStatus = "ACTIVE" := by
  have h := c10_unknown_resume { fails := fun _ => none, ormDetected := false } "bogus"
    (by decide) (by decide)
  exact ⟨h.1 "step-0" (by decide), h.2.1, h.2.2.2.2.1⟩

end Eeljet

